import Mathlib

/-!
# The lake delta writer

A shallow embedding of `be/src/storage/lake/delta_writer.cpp`.

The writer object (`DeltaWriterImpl`) is a record of its C++ members.  Every
collaborator that lives outside the file (tablet manager lookups, the tablet
writer, the memtable, the flush token, the id allocator, the clock) is driven
by an `Env` record that holds the answer of each external call made during one
operation; the operations are total functions from an `Env` and a `State` to a
`Status` and the next `State`.  Calls whose effect a caller can observe
(`put_txn_log`, `submit`, the in-writing accounting of the tablet manager) are
recorded in the state.

64-bit integers are `Int`; the writer performs no arithmetic on them besides
the comparison in the immutable check, so no wrap-around is modelled there.
Scoped memory-tracker setters and logging have no effect on the state and are
left out.
-/

namespace starrocks.lake

/-! ## Status -/

/-- Status codes the delta writer produces or forwards. -/
inductive StatusCode where
  | OK
  | InvalidArgument
  | NotSupported
  | NotFound
  | InternalError
  | Cancelled
  | IOError
  deriving DecidableEq, Repr

/-- A `Status`: a code and its message. -/
structure Status where
  code : StatusCode
  msg : String
  deriving DecidableEq, Repr

namespace Status

/-- The value of `Status::OK()`. -/
def OK : Status := ⟨StatusCode.OK, ""⟩

/-- The value of `Status::InvalidArgument(msg)`. -/
def InvalidArgument (msg : String) : Status := ⟨StatusCode.InvalidArgument, msg⟩

/-- The value of `Status::NotSupported(msg)`. -/
def NotSupported (msg : String) : Status := ⟨StatusCode.NotSupported, msg⟩

/-- The value of `Status::InternalError(msg)`. -/
def InternalError (msg : String) : Status := ⟨StatusCode.InternalError, msg⟩

/-- The method `Status::ok()`. -/
def ok (s : Status) : Bool := s.code == StatusCode.OK

/-- The method `Status::is_not_found()`. -/
def is_not_found (s : Status) : Bool := s.code == StatusCode.NotFound

end Status

/-- A status that is not OK: what a `StatusOr<T>` holds in place of a value. -/
structure ErrorStatus where
  status : Status
  not_ok : status.ok = false

/-- The type `StatusOr<T>`: a status that is not OK, or a value. -/
abbrev StatusOr (α : Type) := Except ErrorStatus α

/-! ## Schemas, slots and chunks -/

/-- The keys type a tablet schema declares. -/
inductive KeysType where
  | PRIMARY_KEYS
  | UNIQUE_KEYS
  | AGG_KEYS
  | DUP_KEYS
  deriving DecidableEq, Repr

/-- One column of a tablet schema (the attributes the writer reads). -/
structure TabletColumn where
  unique_id : Int
  name : String
  is_key : Bool := false
  is_auto_increment : Bool := false
  deriving DecidableEq, Repr, Inhabited

/-- A tablet schema: keys type, ordered columns and the sort-key column indices
(in the order the schema stores them, which need not be ascending). -/
structure TabletSchema where
  keys_type : KeysType
  columns : List TabletColumn
  sort_key_idxes : List Nat
  deriving DecidableEq, Repr

namespace TabletSchema

/-- The method `num_columns()`. -/
def num_columns (ts : TabletSchema) : Nat := ts.columns.length

/-- The method `num_key_columns()`. -/
def num_key_columns (ts : TabletSchema) : Nat := (ts.columns.filter (fun c => c.is_key)).length

/-- The method `column(i)`.  An index past the end is undefined in the source;
the embedding reads the default column there. -/
def column (ts : TabletSchema) (i : Nat) : TabletColumn := ts.columns.getD i default

/-- Modelled from the spec: `TabletSchema::field_index(name)`, whose definition is
outside the file: "resolve each slot name to its index in the tablet schema;
unknown names fail".  The index of the first column with that name, `-1` when
there is none. -/
def field_index (ts : TabletSchema) (name : String) : Int :=
  match ts.columns.findIdx? (fun c => c.name == name) with
  | some i => (i : Int)
  | none => -1

/-- Modelled from the spec: `TabletSchema::create(src, ids)`, whose definition is
outside the file: "the write schema is the projection of the tablet schema by
those ids".  Column `j` of the projection is column `ids[j]` of the source; the
keys type is kept; a projected column is a sort-key column when it was one in the
source (the data model gives each column its "membership in the key and sort-key
subsets"). -/
def create (src : TabletSchema) (ids : List Int) : TabletSchema :=
  { keys_type := src.keys_type
    columns := ids.map (fun id => src.column id.toNat)
    sort_key_idxes :=
      (List.range ids.length).filter (fun j => src.sort_key_idxes.contains (ids.getD j 0).toNat) }

end TabletSchema

/-- A slot descriptor: the writer reads only its column name. -/
structure SlotDescriptor where
  col_name : String
  deriving DecidableEq, Repr

/-- The schema handed to the memtable (`Schema`): its field names. -/
abbrev Schema := List String

/-- The value of `TOpType::UPSERT` (first enumerator of the thrift enum). -/
def TOpType.UPSERT : Int := 0

/-- The value of `TOpType::DELETE` (second enumerator of the thrift enum). -/
def TOpType.DELETE : Int := 1

/-- A chunk: its columns, each the list of its row values.  For the trailing
`__op` column the values are the raw op bytes. -/
structure Chunk where
  columns : List (List Int)
  deriving DecidableEq, Repr

namespace Chunk

/-- The method `num_columns()`. -/
def num_columns (c : Chunk) : Nat := c.columns.length

/-- The method `num_rows()`: the size of the first column, `0` without columns. -/
def num_rows (c : Chunk) : Nat :=
  match c.columns with
  | [] => 0
  | col :: _ => col.length

/-- The method `get_column_by_index(i)`; an index past the end is undefined in
the source and reads as an empty column here. -/
def get_column_by_index (c : Chunk) (i : Nat) : List Int := c.columns.getD i []

end Chunk

/-! ## Collaborators owned by the writer -/

/-- The message `SegmentPB` passed to the flush callback. -/
structure SegmentPB where
  data_size : Int
  deriving DecidableEq, Repr

/-- The message `RowsetTxnMetaPB`. -/
structure RowsetTxnMetaPB where
  partial_update_column_ids : List Int := []
  partial_update_column_unique_ids : List Int := []
  merge_condition : Option String := none
  auto_increment_partial_update_column_id : Option Int := none
  deriving DecidableEq, Repr

/-- The message `RowsetMetadataPB` inside `op_write`. -/
structure RowsetMetadataPB where
  segments : List String := []
  num_rows : Int := 0
  data_size : Int := 0
  overlapped : Bool := false
  deriving DecidableEq, Repr

/-- The message `TxnLogPB_OpWrite`. -/
structure OpWrite where
  rowset : RowsetMetadataPB := {}
  dels : List String := []
  rewrite_segments : List String := []
  txn_meta : Option RowsetTxnMetaPB := none
  deriving DecidableEq, Repr

/-- The message `TxnLog` as far as the writer fills it. -/
structure TxnLog where
  tablet_id : Int := 0
  txn_id : Int := 0
  op_write : OpWrite := {}
  deriving DecidableEq, Repr

/-- The tablet writer the delta writer owns.  It is a black box: the record keeps
what it was constructed from and which life-cycle calls it received; what its
methods return comes from the `Env`. -/
structure TabletWriter where
  is_pk : Bool
  schema : Option TabletSchema
  txn_id : Int
  opened : Bool := false
  finished : Bool := false
  closed : Bool := false
  deriving DecidableEq, Repr

/-- The memtable: what it was constructed from and the batches inserted so far
(each a chunk with the selected row indexes). -/
structure MemTable where
  tablet_id : Int
  schema : Schema
  slots : Option (List SlotDescriptor)
  merge_condition : String
  max_buffer_size : Option Int
  rows : List (Chunk × List Nat) := []
  finalized : Bool := false
  deriving DecidableEq, Repr

/-- The flush token: every memtable handed to `submit`, oldest first, and the
number of them not yet flushed. -/
structure FlushToken where
  submitted : List MemTable := []
  queueing_memtable_num : Nat := 0
  deriving DecidableEq, Repr

/-- A tablet handle returned by `TabletManager::get_tablet`. -/
structure Tablet where
  data_size : Int
  get_schema_by_index_id : Int → StatusOr TabletSchema
  get_schema : StatusOr TabletSchema

/-! ## The writer object -/

/-- The members of `DeltaWriterImpl`.  Pointers to collaborators that are never
dereferenced by the embedding (`_tablet_manager`, `_mem_tracker`) are kept as
optional handles so that a null pointer can be told apart. -/
structure DeltaWriterImpl where
  _tablet_manager : Option Nat
  _tablet_id : Int
  _txn_id : Int
  _table_id : Int
  _partition_id : Int
  _index_id : Int
  _mem_tracker : Option Nat
  _slots : Option (List SlotDescriptor)
  _max_buffer_size : Int
  _tablet_writer : Option TabletWriter := none
  _mem_table : Option MemTable := none
  _mem_table_sink : Bool := false
  _flush_token : Option FlushToken := none
  _tablet_schema : Option TabletSchema := none
  _write_schema : Option TabletSchema := none
  _write_column_ids : List Int := []
  _write_schema_for_mem_table : Schema := []
  _immutable_tablet_size : Int := 0
  _is_immutable : Bool := false
  _merge_condition : String
  _miss_auto_increment_column : Bool
  _partial_schema_with_sort_key : Bool := false
  _last_write_ts : Int := 0
  deriving DecidableEq, Repr

namespace DeltaWriterImpl

/-- The constructor of `DeltaWriterImpl`; `write_buffer_size` is the value of
`config::write_buffer_size`. -/
def new (write_buffer_size : Int) (tablet_manager : Option Nat) (tablet_id txn_id partition_id : Int)
    (slots : Option (List SlotDescriptor)) (merge_condition : String)
    (miss_auto_increment_column : Bool) (table_id immutable_tablet_size : Int)
    (mem_tracker : Option Nat) (max_buffer_size index_id : Int) : DeltaWriterImpl :=
  { _tablet_manager := tablet_manager
    _tablet_id := tablet_id
    _txn_id := txn_id
    _table_id := table_id
    _partition_id := partition_id
    _index_id := index_id
    _mem_tracker := mem_tracker
    _slots := slots
    _max_buffer_size := if max_buffer_size > 0 then max_buffer_size else write_buffer_size
    _immutable_tablet_size := immutable_tablet_size
    _merge_condition := merge_condition
    _miss_auto_increment_column := miss_auto_increment_column }

/-- The observer `partition_id()`. -/
def partition_id (w : DeltaWriterImpl) : Int := w._partition_id

/-- The observer `tablet_id()`. -/
def tablet_id (w : DeltaWriterImpl) : Int := w._tablet_id

/-- The observer `txn_id()`. -/
def txn_id (w : DeltaWriterImpl) : Int := w._txn_id

/-- The observer `mem_tracker()`. -/
def mem_tracker (w : DeltaWriterImpl) : Option Nat := w._mem_tracker

/-- The observer `is_immutable()`. -/
def is_immutable (w : DeltaWriterImpl) : Bool := w._is_immutable

/-- The observer `last_write_ts()`. -/
def last_write_ts (w : DeltaWriterImpl) : Int := w._last_write_ts

end DeltaWriterImpl

/-! ## The façade and its builder -/

/-- The public `DeltaWriter`: it owns the implementation object. -/
structure DeltaWriter where
  _impl : DeltaWriterImpl
  deriving DecidableEq, Repr

namespace DeltaWriter

/-- The observer `DeltaWriter::partition_id()`. -/
def partition_id (d : DeltaWriter) : Int := d._impl.partition_id

/-- The observer `DeltaWriter::tablet_id()`. -/
def tablet_id (d : DeltaWriter) : Int := d._impl.tablet_id

/-- The observer `DeltaWriter::txn_id()`. -/
def txn_id (d : DeltaWriter) : Int := d._impl.txn_id

end DeltaWriter

/-- The members of `DeltaWriterBuilder`. -/
structure DeltaWriterBuilder where
  _tablet_mgr : Option Nat := none
  _tablet_id : Int := 0
  _txn_id : Int := 0
  _table_id : Int := 0
  _partition_id : Int := 0
  _index_id : Int := 0
  _mem_tracker : Option Nat := none
  _slots : Option (List SlotDescriptor) := none
  _merge_condition : String := ""
  _miss_auto_increment_column : Bool := false
  _immutable_tablet_size : Int := 0
  _max_buffer_size : Int := 0
  deriving DecidableEq, Repr

namespace DeltaWriterBuilder

/-- The constructor call at the end of `build()`: `new DeltaWriterImpl(...)` on the
builder's fields. -/
def construct (write_buffer_size : Int) (b : DeltaWriterBuilder) : DeltaWriterImpl :=
  DeltaWriterImpl.new write_buffer_size b._tablet_mgr b._tablet_id b._txn_id b._partition_id
    b._slots b._merge_condition b._miss_auto_increment_column b._table_id
    b._immutable_tablet_size b._mem_tracker b._max_buffer_size b._index_id

/-- The method `DeltaWriterBuilder::build()`; `write_buffer_size` is the value of
`config::write_buffer_size` read by the constructor. -/
def build (write_buffer_size : Int) (b : DeltaWriterBuilder) : StatusOr DeltaWriter :=
  if b._tablet_mgr.isNone then
    .error ⟨Status.InvalidArgument "tablet_manager not set", rfl⟩
  else if b._tablet_id == 0 then
    .error ⟨Status.InvalidArgument "tablet_id not set", rfl⟩
  else if b._txn_id == 0 then
    .error ⟨Status.InvalidArgument "txn_id not set", rfl⟩
  else if b._mem_tracker.isNone then
    .error ⟨Status.InvalidArgument "mem_tracker not set", rfl⟩
  else if b._max_buffer_size < 0 then
    .error ⟨Status.InvalidArgument ("invalid max_buffer_size: " ++ toString b._max_buffer_size), rfl⟩
  else if b._miss_auto_increment_column && b._table_id == 0 then
    .error ⟨Status.InvalidArgument "must set table_id when miss_auto_increment_column is true", rfl⟩
  else if b._index_id == 0 then
    .error ⟨Status.InvalidArgument "index_id not set", rfl⟩
  else
    .ok ⟨b.construct write_buffer_size⟩

end DeltaWriterBuilder

/-! ## Schema reconciliation -/

/-- The algorithm `std::includes(first1, last1, first2, last2)` on two ranges: it
walks the first range once and advances in the second on every match.  The
result is the inclusion test only when both ranges are ascending. -/
def std_includes : List Int → List Int → Bool
  | _, [] => true
  | [], _ :: _ => false
  | a :: as, b :: bs =>
    if b < a then false
    else if !(a < b) then std_includes as bs
    else std_includes as (b :: bs)

/-- The sorted copy `std::sort` leaves in `sort_key_idxes`. -/
def sorted_idxes (idxes : List Nat) : List Nat := idxes.insertionSort (fun a b => a ≤ b)

/-- The test `slots->size() > 0 && slots->back()->col_name() == "__op"`. -/
def has_op_column (slots : List SlotDescriptor) : Bool :=
  match slots.getLast? with
  | some s => s.col_name == "__op"
  | none => false

/-- The local `write_columns` of `init_write_schema`: the slot count without the
trailing `__op` slot. -/
def write_columns (slots : List SlotDescriptor) : Nat :=
  if has_op_column slots then slots.length - 1 else slots.length

/-- The name-resolution loop of `init_write_schema` over the slots still to be
visited: each resolved index is pushed onto `_write_column_ids`; the first
unknown name stops the loop with invalid-argument, leaving what was pushed. -/
def resolve_slots (ts : TabletSchema) : List SlotDescriptor → List Int → Option Status × List Int
  | [], ids => (none, ids)
  | s :: rest, ids =>
    let index := ts.field_index s.col_name
    if index < 0 then
      (some (Status.InvalidArgument ("Invalid column name: " ++ s.col_name)), ids)
    else
      resolve_slots ts rest (ids ++ [index])

/-- The loop of `init_write_schema` that looks for an auto-increment column
among the sort-key columns of the write schema. -/
def auto_increment_in_sort_key (ws : TabletSchema) : Bool :=
  (sorted_idxes ws.sort_key_idxes).any (fun idx => (ws.column idx).is_auto_increment)

namespace DeltaWriterImpl

/-- The tail of `init_write_schema` after the write schema is chosen: the
auto-increment-in-sort-key check. -/
def init_write_schema_check (w : DeltaWriterImpl) (ws : TabletSchema) : Status :=
  if auto_increment_in_sort_key ws && w._miss_auto_increment_column then
    Status.NotSupported "auto increment column in sort key do not support partial update"
  else
    Status.OK

/-- The method `DeltaWriterImpl::init_write_schema()`. -/
def init_write_schema (w : DeltaWriterImpl) : Status × DeltaWriterImpl :=
  match w._tablet_schema with
  | none =>
    (Status.InternalError "init_write_schema() must be invoked after init_tablet_schema()", w)
  | some ts =>
    let w1 := { w with _write_schema := some ts }
    match w._slots with
    | none => (Status.OK, w1)
    | some slots =>
      if ts.keys_type == KeysType.PRIMARY_KEYS && decide (write_columns slots < ts.num_columns) then
        match resolve_slots ts (slots.take (write_columns slots)) w1._write_column_ids with
        | (some err, ids) => (err, { w1 with _write_column_ids := ids })
        | (none, ids) =>
          let sort_key_idxes := sorted_idxes ts.sort_key_idxes
          let w2 := { w1 with
            _write_column_ids := ids
            _partial_schema_with_sort_key :=
              if !(std_includes ids (sort_key_idxes.map Int.ofNat)) then true
              else w1._partial_schema_with_sort_key }
          let ws := TabletSchema.create ts ids
          let w3 := { w2 with _write_schema := some ws }
          (init_write_schema_check w3 ws, w3)
      else
        (init_write_schema_check w1 ts, w1)

end DeltaWriterImpl

/-! ## The tablet manager, the environment and the state -/

/-- Modelled from the spec: the in-writing byte accounting of `TabletManager`,
whose definition is outside the file: a "registry for ... in-writing byte
accounting keyed by (tablet-id, txn-id)".  Each entry is one recorded addition. -/
structure TabletManager where
  in_writing : List ((Int × Int) × Int) := []
  deriving DecidableEq, Repr

namespace TabletManager

/-- Modelled from the spec: `add_in_writing_data_size(tablet_id, txn_id, size)`
adds `size` to the entry of `(tablet_id, txn_id)`. -/
def add_in_writing_data_size (m : TabletManager) (tablet_id txn_id size : Int) : TabletManager :=
  { in_writing := m.in_writing ++ [((tablet_id, txn_id), size)] }

/-- Modelled from the spec: `remove_in_writing_data_size(tablet_id, txn_id)`
removes the entry of `(tablet_id, txn_id)`. -/
def remove_in_writing_data_size (m : TabletManager) (tablet_id txn_id : Int) : TabletManager :=
  { in_writing := m.in_writing.filter (fun e => !(e.1 == (tablet_id, txn_id))) }

/-- Modelled from the spec: the in-writing size recorded for `(tablet_id, txn_id)`. -/
def in_writing_size_of (m : TabletManager) (tablet_id txn_id : Int) : Int :=
  ((m.in_writing.filter (fun e => e.1 == (tablet_id, txn_id))).map (fun e => e.2)).sum

/-- Modelled from the spec: `in_writing_data_size(tablet_id)`, the in-writing
bytes of the tablet over all its transactions. -/
def in_writing_data_size (m : TabletManager) (tablet_id : Int) : Int :=
  ((m.in_writing.filter (fun e => e.1.1 == tablet_id)).map (fun e => e.2)).sum

end TabletManager

/-- One invocation of the callback given to `submit`: its arguments and the
answer of the `get_tablet` call it makes. -/
structure FlushDone where
  seg : Option SegmentPB
  eos : Bool
  get_tablet : StatusOr Tablet

/-- The answers of the external calls made during one operation of the writer.
`get_tablet` is keyed by the source line of the call. -/
structure Env where
  now : Int
  create_flush_token : Bool
  get_tablet : Nat → StatusOr Tablet
  tablet_writer_open : Status
  convert_schema : Option TabletSchema → Option (List SlotDescriptor) → Schema
  insert_full : Bool
  limit_exceeded : Bool
  parent_limit_exceeded : Option Bool
  finalize : Status
  result_chunk : Option Chunk
  latest_cached_tablet_metadata : Option Int
  get_rowids_from_pkindex : Status × List (Option Nat)
  get_next_increment_id_interval : Status × List Int
  fill_range : Status
  submit : Status
  wait_callbacks : List FlushDone
  wait : Status
  tablet_writer_finish : Status
  files : List String
  num_rows : Int
  data_size : Int
  rowset_txn_meta : Option RowsetTxnMetaPB
  is_segment : String → Bool
  is_del : String → Bool
  gen_segment_filename : Int → Nat → String
  put_txn_log : Status

/-- The writer together with what it acts on: the tablet manager's accounting
and the record of the calls `put_txn_log`, `preload_update_state`,
`get_next_increment_id_interval` (table id, count) and `fill_range` (column
index, ids, filter). -/
structure State where
  impl : DeltaWriterImpl
  mgr : TabletManager := {}
  put_txn_logs : List TxnLog := []
  preloaded : List TxnLog := []
  id_requests : List (Int × Nat) := []
  fill_ranges : List (Nat × List Int × List Nat) := []
  deriving DecidableEq, Repr

/-- The two values of `DeltaWriter::FinishMode`. -/
inductive FinishMode where
  | kWriteTxnLog
  | kDontWriteTxnLog
  deriving DecidableEq, Repr

/-! ## Operations -/

/-- The sum of two `int64_t` values as the machine computes it: the exact sum
reduced to the two's-complement range `[-2^63, 2^63)`. -/
def int64_add (a b : Int) : Int := (a + b + 2 ^ 63) % 2 ^ 64 - 2 ^ 63

/-- The method `DeltaWriterImpl::check_immutable()`.  The two sizes are `int64_t`
and so is their sum. -/
def check_immutable (env : Env) (s : State) : Status × State :=
  if s.impl._immutable_tablet_size > 0 then
    match env.get_tablet 200 with
    | .error e => (e.status, s)
    | .ok tablet =>
      if int64_add tablet.data_size (s.mgr.in_writing_data_size s.impl._tablet_id)
          > s.impl._immutable_tablet_size then
        (Status.OK, { s with impl := { s.impl with _is_immutable := true } })
      else
        (Status.OK, s)
  else
    (Status.OK, s)

/-- The callback that `flush_async` hands to `submit`, run by the flush pool for
an emitted segment.  Its immutable test adds the two `int64_t` sizes as
`check_immutable()` does. -/
def flush_callback (d : FlushDone) (s : State) : State :=
  let s1 : State :=
    match d.seg with
    | some seg =>
      { s with mgr := s.mgr.add_in_writing_data_size s.impl._tablet_id s.impl._txn_id seg.data_size }
    | none => s
  if s1.impl._immutable_tablet_size > 0 then
    match d.get_tablet with
    | .error _ => s1
    | .ok tablet =>
      if int64_add tablet.data_size (s1.mgr.in_writing_data_size s1.impl._tablet_id)
          > s1.impl._immutable_tablet_size then
        { s1 with impl := { s1.impl with _is_immutable := true } }
      else
        s1
  else
    s1

/-- The call `_flush_token->wait()`: the pending flushes complete, running their
callbacks in order, and the token reports its status.  Without a token the call
is undefined in the source; the embedding leaves the state as it is. -/
def flush_token_wait (env : Env) (s : State) : Status × State :=
  match s.impl._flush_token with
  | none => (env.wait, s)
  | some _ =>
    let s1 := env.wait_callbacks.foldl (fun acc d => flush_callback d acc) s
    let tok := s1.impl._flush_token.map (fun t => { t with queueing_memtable_num := 0 })
    (env.wait, { s1 with impl := { s1.impl with _flush_token := tok } })

/-- The method `DeltaWriterImpl::init_tablet_schema()`. -/
def init_tablet_schema (env : Env) (w : DeltaWriterImpl) : Status × DeltaWriterImpl :=
  if w._tablet_schema.isSome then
    (Status.OK, w)
  else
    match env.get_tablet 291 with
    | .error e => (e.status, w)
    | .ok tablet =>
      match tablet.get_schema_by_index_id w._index_id with
      | .ok schema => (Status.OK, { w with _tablet_schema := some schema })
      | .error e =>
        if e.status.is_not_found then
          match tablet.get_schema with
          | .ok schema => (Status.OK, { w with _tablet_schema := some schema })
          | .error e2 => (e2.status, w)
        else
          (e.status, w)

/-- The method `DeltaWriterImpl::build_schema_and_writer()`. -/
def build_schema_and_writer (env : Env) (w : DeltaWriterImpl) : Status × DeltaWriterImpl :=
  if !w._mem_table_sink then
    match env.get_tablet 219 with
    | .error e => (e.status, w)
    | .ok _ =>
      let r1 := init_tablet_schema env w
      if !r1.1.ok then r1 else
      let r2 := r1.2.init_write_schema
      if !r2.1.ok then r2 else
      let w2 := r2.2
      let tw : TabletWriter :=
        { is_pk := w2._tablet_schema.map (fun ts => ts.keys_type) == some KeysType.PRIMARY_KEYS
          schema := w2._write_schema
          txn_id := w2._txn_id }
      let w3 := { w2 with _tablet_writer := some tw }
      if !env.tablet_writer_open.ok then (env.tablet_writer_open, w3) else
      (Status.OK, { w3 with
        _tablet_writer := some { tw with opened := true }
        _mem_table_sink := true
        _write_schema_for_mem_table := env.convert_schema w3._write_schema w3._slots })
  else
    (Status.OK, w)

/-- The method `DeltaWriterImpl::reset_memtable()`. -/
def reset_memtable (env : Env) (w : DeltaWriterImpl) : Status × DeltaWriterImpl :=
  let r := build_schema_and_writer env w
  if !r.1.ok then r else
  let w1 := r.2
  if w1._slots.isSome || !(w1._merge_condition == "") then
    let mt : MemTable :=
      { tablet_id := w1._tablet_id
        schema := w1._write_schema_for_mem_table
        slots := w1._slots
        merge_condition := w1._merge_condition
        max_buffer_size := none }
    (Status.OK, { w1 with _mem_table := some mt })
  else
    let mt : MemTable :=
      { tablet_id := w1._tablet_id
        schema := w1._write_schema_for_mem_table
        slots := none
        merge_condition := ""
        max_buffer_size := some w1._max_buffer_size }
    (Status.OK, { w1 with _mem_table := some mt })

/-- The initial entry of `rss_rowid_map`: `(uint64_t)((uint32_t)-1) << 32`. -/
def rss_rowid_init : Nat := 0xFFFFFFFF * 2 ^ 32

/-- The loop of `fill_auto_increment_id` that builds the filter from the probed
map: `1` where the upper 32 bits are all ones, `0` elsewhere. -/
def filter_of_rowids (rss_rowid_map : List Nat) : List Nat :=
  rss_rowid_map.map (fun v => if (v / 2 ^ 32) % 2 ^ 32 = 0xFFFFFFFF then 1 else 0)

/-- The map after `get_rowids_from_pkindex`: the probe overwrites the entries it
has a mapping for and leaves the others. -/
def probe_rowids (rss_rowid_map : List Nat) (found : List (Option Nat)) : List Nat :=
  (List.range rss_rowid_map.length).map
    (fun i => ((found.getD i none).getD (rss_rowid_map.getD i 0)) % 2 ^ 64)

/-- Steps 1 and 2 of `fill_auto_increment_id` for a chunk of `n` rows: the map
starts with `n` initial entries, the index is probed when cached metadata is
present, and the filter and the `uint32_t` counter `gen_num` are built from the
outcome. -/
def auto_increment_filter (env : Env) (n : Nat) : List Nat × Nat :=
  let rss_rowid_map := List.replicate n rss_rowid_init
  let metadata := env.latest_cached_tablet_metadata
  let st : Status := if metadata.isSome then env.get_rowids_from_pkindex.1 else Status.OK
  let rss_rowid_map :=
    if metadata.isSome then probe_rowids rss_rowid_map env.get_rowids_from_pkindex.2
    else rss_rowid_map
  if metadata.isSome && st.ok then
    (filter_of_rowids rss_rowid_map,
      ((filter_of_rowids rss_rowid_map).filter (fun b => b == 1)).length % 2 ^ 32)
  else
    (List.replicate (rss_rowid_map.length % 2 ^ 32) 1, rss_rowid_map.length % 2 ^ 32)

/-- The method `DeltaWriterImpl::fill_auto_increment_id(chunk)`.  The encoded
primary-key column has one entry per row of the chunk. -/
def fill_auto_increment_id (env : Env) (s : State) (chunk : Chunk) : Status × State :=
  match env.get_tablet 496 with
  | .error e => (e.status, s)
  | .ok _ =>
    let filter := (auto_increment_filter env chunk.num_rows).1
    let gen_num := (auto_increment_filter env chunk.num_rows).2
    let s1 := { s with id_requests := s.id_requests ++ [(s.impl._table_id, gen_num)] }
    if !env.get_next_increment_id_interval.1.ok then (env.get_next_increment_id_interval.1, s1) else
    let ids := env.get_next_increment_id_interval.2
    match ((s.impl._write_schema.map (fun ws => ws.columns)).getD []).findIdx?
        (fun c => c.is_auto_increment) with
    | none => (Status.OK, s1)
    | some i =>
      let s2 := { s1 with fill_ranges := s1.fill_ranges ++ [(i, ids, filter)] }
      if !env.fill_range.ok then (env.fill_range, s2) else (Status.OK, s2)

/-- The step of `flush_async` between `finalize()` and `submit`: when
`_miss_auto_increment_column` is set and the memtable has a result chunk, the
auto-increment filler runs over it. -/
def fill_result_chunk (env : Env) (s : State) : Status × State :=
  match env.result_chunk with
  | some chunk =>
    if s.impl._miss_auto_increment_column then fill_auto_increment_id env s chunk
    else (Status.OK, s)
  | none => (Status.OK, s)

/-- The method `DeltaWriterImpl::flush_async()`.  Submitting without a flush
token is undefined in the source; the embedding then records nothing. -/
def flush_async (env : Env) (s : State) : Status × State :=
  match s.impl._mem_table with
  | none => (Status.OK, s)
  | some mt =>
    if !env.finalize.ok then (env.finalize, s) else
    let mt1 := { mt with finalized := true }
    let s1 := { s with impl := { s.impl with _mem_table := some mt1 } }
    let filled := fill_result_chunk env s1
    if !filled.1.ok then filled else
    let s2 := filled.2
    let tok := s2.impl._flush_token.map (fun t =>
      { t with submitted := t.submitted ++ [mt1], queueing_memtable_num := t.queueing_memtable_num + 1 })
    (env.submit, { s2 with impl := { s2.impl with
      _flush_token := tok
      _mem_table := none
      _last_write_ts := 0 } })

/-- The method `DeltaWriterImpl::flush()`. -/
def flush (env : Env) (s : State) : Status × State :=
  let r := flush_async env s
  if !r.1.ok then r else flush_token_wait env r.2

/-- The method `DeltaWriterImpl::open()`. -/
def «open» (env : Env) (s : State) : Status × State :=
  if env.create_flush_token then
    (Status.OK, { s with impl := { s.impl with _flush_token := some {} } })
  else
    (Status.InternalError "fail to create flush token",
      { s with impl := { s.impl with _flush_token := none } })

/-- The method `DeltaWriterImpl::check_partial_update_with_sort_key(chunk)`.
Calling `back()` on an empty slot list is undefined in the source and reads as
"no op column" here; a row past the end of the op column is not an upsert. -/
def check_partial_update_with_sort_key (w : DeltaWriterImpl) (chunk : Chunk) : Status :=
  if w._partial_schema_with_sort_key && (w._slots.map has_op_column == some true) then
    let op_column := chunk.get_column_by_index (chunk.num_columns - 1)
    if (List.range chunk.num_rows).any (fun i => op_column.get? i == some TOpType.UPSERT) then
      Status.NotSupported "table with sort key do not support partial update"
    else
      Status.OK
  else
    Status.OK

/-- The call `_mem_table->insert(chunk, indexes, 0, indexes_size)`: the selected
rows join the memtable. -/
def mem_table_insert (w : DeltaWriterImpl) (chunk : Chunk) (indexes : List Nat) (indexes_size : Nat) :
    DeltaWriterImpl :=
  { w with _mem_table := w._mem_table.map (fun mt =>
      { mt with rows := mt.rows ++ [(chunk, indexes.take indexes_size)] }) }

/-- The first step of `write`: `if (_mem_table == nullptr) reset_memtable()`. -/
def ensure_mem_table (env : Env) (w : DeltaWriterImpl) : Status × DeltaWriterImpl :=
  if w._mem_table.isNone then reset_memtable env w else (Status.OK, w)

/-- The steps of `write` after the partial-update guard: the write timestamp, the
insertion and the choice of the flush action. -/
def write_rows (env : Env) (s : State) (chunk : Chunk) (indexes : List Nat) (indexes_size : Nat) :
    Status × State :=
  let w2 := { s.impl with _last_write_ts := env.now }
  let s3 := { s with impl := mem_table_insert w2 chunk indexes indexes_size }
  if env.limit_exceeded then flush env s3
  else if env.parent_limit_exceeded == some true then flush env s3
  else if env.insert_full then flush_async env s3
  else (Status.OK, s3)

/-- The method `DeltaWriterImpl::write(chunk, indexes, indexes_size)`. -/
def write (env : Env) (s : State) (chunk : Chunk) (indexes : List Nat) (indexes_size : Nat) :
    Status × State :=
  let r := ensure_mem_table env s.impl
  if !r.1.ok then (r.1, { s with impl := r.2 }) else
  let st := check_partial_update_with_sort_key r.2 chunk
  if !st.ok then (st, { s with impl := r.2 }) else
  write_rows env { s with impl := r.2 } chunk indexes indexes_size

/-- The file loop of `finish`: a segment joins the rowset, a delete file joins
`dels`, anything else stops the loop with internal-error. -/
def classify_files (is_segment is_del : String → Bool) :
    List String → OpWrite → Except Status OpWrite
  | [], op => .ok op
  | f :: rest, op =>
    if is_segment f then
      classify_files is_segment is_del rest
        { op with rowset := { op.rowset with segments := op.rowset.segments ++ [f] } }
    else if is_del f then
      classify_files is_segment is_del rest { op with dels := op.dels ++ [f] }
    else
      .error (Status.InternalError ("unknown file " ++ f))

/-- The loop `for i < segments_size: add_rewrite_segments(gen_segment_filename(txn_id))`
run `n` times; the generator is given the txn id and the number of names made so far. -/
def add_rewrite_segments (gen : Int → Nat → String) (txn_id : Int) : Nat → OpWrite → OpWrite
  | 0, op => op
  | n + 1, op =>
    add_rewrite_segments gen txn_id n
      { op with rewrite_segments := op.rewrite_segments ++ [gen txn_id op.rewrite_segments.length] }

/-- The accessor `mutable_txn_meta()`: the txn meta, created empty when absent. -/
def mutable_txn_meta (op : OpWrite) : RowsetTxnMetaPB := op.txn_meta.getD {}

/-- The loop of `finish` that appends the tablet column id and the unique id of
every column of the write schema; reading `_write_column_ids` past its end is
undefined in the source and reads as `0` here. -/
def add_partial_update_columns (ws : TabletSchema) (write_column_ids : List Int)
    (meta : RowsetTxnMetaPB) : RowsetTxnMetaPB :=
  (List.range ws.columns.length).foldl (fun m i =>
    { m with
      partial_update_column_ids := m.partial_update_column_ids ++ [write_column_ids.getD i 0]
      partial_update_column_unique_ids :=
        m.partial_update_column_unique_ids ++ [(ws.column i).unique_id] }) meta

/-- The part of `finish` that handles partial update, condition update and auto
increment once the tablet writer exposes a `rowset_txn_meta`. -/
def fill_txn_meta (env : Env) (w : DeltaWriterImpl) (ws : TabletSchema) (is_partial_update : Bool)
    (rowset_txn_meta : RowsetTxnMetaPB) (op0 : OpWrite) : OpWrite :=
  let op1 : OpWrite :=
    if is_partial_update then
      let op := { op0 with txn_meta := some rowset_txn_meta }
      let tm := add_partial_update_columns ws w._write_column_ids (mutable_txn_meta op)
      let op := { op with txn_meta := some tm }
      add_rewrite_segments env.gen_segment_filename w._txn_id op.rowset.segments.length op
    else op0
  let op2 : OpWrite :=
    if w._merge_condition != "" then
      let tm := { mutable_txn_meta op1 with merge_condition := some w._merge_condition }
      { op1 with txn_meta := some tm }
    else op1
  if w._miss_auto_increment_column then
    let op3 : OpWrite :=
      match ws.columns.findIdx? (fun c => c.is_auto_increment) with
      | some i =>
        let tm := { mutable_txn_meta op2 with auto_increment_partial_update_column_id := some (i : Int) }
        { op2 with txn_meta := some tm }
      | none => op2
    if op3.rewrite_segments.length == 0 then
      add_rewrite_segments env.gen_segment_filename w._txn_id op3.rowset.segments.length op3
    else op3
  else op2

/-- The local `is_partial_update` of `finish`:
`_write_schema->num_columns() < _tablet_schema->num_columns()`.  Dereferencing
an absent schema is undefined in the source; the embedding reads such a schema
as one without columns. -/
def DeltaWriterImpl.is_partial_update (w : DeltaWriterImpl) : Bool :=
  decide ((w._write_schema.getD ⟨KeysType.DUP_KEYS, [], []⟩).num_columns <
    (w._tablet_schema.getD ⟨KeysType.DUP_KEYS, [], []⟩).num_columns)

/-- The steps of `finish` before the txn log is built: schema and writer, the
drain of pending flushes and `_tablet_writer->finish()`. -/
def finish_prepare (env : Env) (s : State) : Status × State :=
  let r1 := build_schema_and_writer env s.impl
  let s1 := { s with impl := r1.2 }
  if !r1.1.ok then (r1.1, s1) else
  let r2 := flush env s1
  if !r2.1.ok then r2 else
  let s2 := r2.2
  let s3 := { s2 with impl := { s2.impl with
    _tablet_writer := s2.impl._tablet_writer.map (fun tw => { tw with finished := true }) } }
  (env.tablet_writer_finish, s3)

/-- The three setters of `finish` after the file loop: `num_rows`, `data_size`
and `overlapped = (segments_size > 1)`. -/
def set_rowset_stats (env : Env) (op : OpWrite) : OpWrite :=
  { op with rowset := { op.rowset with
      num_rows := env.num_rows
      data_size := env.data_size
      overlapped := decide (op.rowset.segments.length > 1) } }

/-- The block of `finish` guarded by `rowset_txn_meta != nullptr`. -/
def handle_txn_meta (env : Env) (w : DeltaWriterImpl) (op : OpWrite) : OpWrite :=
  match env.rowset_txn_meta with
  | some rowset_txn_meta =>
    fill_txn_meta env w (w._write_schema.getD ⟨KeysType.DUP_KEYS, [], []⟩) w.is_partial_update
      rowset_txn_meta op
  | none => op

/-- The steps of `finish` from the construction of the txn log on, with the
tablet handle obtained for it.  Dereferencing an absent schema is undefined in
the source; the embedding reads such a schema as one without columns. -/
def finish_write_txn_log (env : Env) (s : State) : Status × State :=
  let w := s.impl
  match classify_files env.is_segment env.is_del env.files {} with
  | .error e => (e, s)
  | .ok op1 =>
    let op2 := set_rowset_stats env op1
    if w.is_partial_update && !(w._merge_condition == "") then
      (Status.NotSupported "partial update and condition update at the same time", s)
    else
      let op3 := handle_txn_meta env w op2
      let txn_log : TxnLog := { tablet_id := w._tablet_id, txn_id := w._txn_id, op_write := op3 }
      let ts : TabletSchema := w._tablet_schema.getD ⟨KeysType.DUP_KEYS, [], []⟩
      let s1 : State :=
        if ts.keys_type == KeysType.PRIMARY_KEYS then { s with preloaded := s.preloaded ++ [txn_log] }
        else s
      let s2 : State := { s1 with put_txn_logs := s1.put_txn_logs ++ [txn_log] }
      if !env.put_txn_log.ok then (env.put_txn_log, s2) else (Status.OK, s2)

/-- The method `DeltaWriterImpl::finish(mode)`. -/
def finish (env : Env) (s : State) (mode : FinishMode) : Status × State :=
  let r := finish_prepare env s
  if !r.1.ok then r else
  let s1 := r.2
  if mode == FinishMode.kDontWriteTxnLog then (Status.OK, s1) else
  if s1.impl._txn_id < 0 then
    (Status.InvalidArgument ("negative txn id: " ++ toString s1.impl._txn_id), s1)
  else
    match env.get_tablet 422 with
    | .error e => (e.status, s1)
    | .ok _ => finish_write_txn_log env s1

/-- The method `DeltaWriterImpl::close()`. -/
def close (env : Env) (s : State) : State :=
  let s1 : State := if s.impl._flush_token.isSome then (flush_token_wait env s).2 else s
  let w := s1.impl
  let w1 : DeltaWriterImpl := { w with
    _tablet_writer := none
    _mem_table := none
    _mem_table_sink := false
    _flush_token := none
    _tablet_schema := none
    _write_schema := none
    _merge_condition := "" }
  if w1._immutable_tablet_size > 0 then
    { s1 with impl := w1, mgr := s1.mgr.remove_in_writing_data_size w1._tablet_id w1._txn_id }
  else
    { s1 with impl := w1 }

/-- The observer `files()`; `reported` is what `_tablet_writer->files()` returns. -/
def files (reported : List String) (w : DeltaWriterImpl) : List String :=
  if w._tablet_writer.isSome then reported else []

/-- The observer `data_size()`; `reported` is what `_tablet_writer->data_size()` returns. -/
def data_size (reported : Int) (w : DeltaWriterImpl) : Int :=
  if w._tablet_writer.isSome then reported else 0

/-- The observer `num_rows()`; `reported` is what `_tablet_writer->num_rows()` returns. -/
def num_rows (reported : Int) (w : DeltaWriterImpl) : Int :=
  if w._tablet_writer.isSome then reported else 0

/-- The observer `queueing_memtable_num()`. -/
def queueing_memtable_num (w : DeltaWriterImpl) : Int :=
  match w._flush_token with
  | some t => (t.queueing_memtable_num : Int)
  | none => 0

/-! ## Call sequences -/

/-- One call on the writer, or one run of the flush callback on the pool. -/
inductive Op where
  | «open»
  | write (chunk : Chunk) (indexes : List Nat) (indexes_size : Nat)
  | flush
  | flush_async
  | finish (mode : FinishMode)
  | close
  | check_immutable
  | callback (d : FlushDone)

/-- The state after one call made under the environment `env`. -/
def step (env : Env) (op : Op) (s : State) : State :=
  match op with
  | .«open» => («open» env s).2
  | .write chunk indexes indexes_size => (write env s chunk indexes indexes_size).2
  | .flush => (flush env s).2
  | .flush_async => (flush_async env s).2
  | .finish mode => (finish env s mode).2
  | .close => close env s
  | .check_immutable => (check_immutable env s).2
  | .callback d => flush_callback d s

/-- The state after a sequence of calls, each under its own environment. -/
def run (s : State) : List (Env × Op) → State
  | [] => s
  | (env, op) :: rest => run (step env op s) rest

/-- The state of a writer as its constructor leaves it, for the constructor
arguments held by `b`, next to a tablet manager. -/
def State.init (write_buffer_size : Int) (b : DeltaWriterBuilder) (mgr : TabletManager) : State :=
  { impl := b.construct write_buffer_size, mgr := mgr }

/-- The states a constructed writer can be in: any sequence of calls, under any
environments, from the constructor's state. -/
inductive Reachable : State → Prop where
  | init (write_buffer_size : Int) (b : DeltaWriterBuilder) (mgr : TabletManager) :
    Reachable (State.init write_buffer_size b mgr)
  | step {s : State} (env : Env) (op : Op) : Reachable s → Reachable (step env op s)

/-! ## Definitions used to state the properties -/

/-- The condition under which `build()` refuses its parameters. -/
def DeltaWriterBuilder.missing_required (b : DeltaWriterBuilder) : Prop :=
  b._tablet_mgr = none ∨ b._tablet_id = 0 ∨ b._txn_id = 0 ∨ b._mem_tracker = none ∨
    b._max_buffer_size < 0 ∨ b._index_id = 0 ∨
    (b._miss_auto_increment_column = true ∧ b._table_id = 0)

/-- The spec's effective write-column count: `slots.size()` minus 1 when the
last slot is named `"__op"`. -/
def effective_write_column_count (slots : List SlotDescriptor) : Nat :=
  slots.length - (if slots.getLast?.map (fun s => s.col_name) = some "__op" then 1 else 0)

/-- The spec's definition of a partial update: slots are supplied,
`keys_type == PRIMARY_KEYS` and the effective write-column count is strictly less
than the tablet schema's column count. -/
def spec_partial_update (ts : TabletSchema) : Option (List SlotDescriptor) → Prop
  | none => False
  | some slots =>
    ts.keys_type = KeysType.PRIMARY_KEYS ∧ effective_write_column_count slots < ts.num_columns

/-- The invariant documented at the members `_write_schema` and `_write_column_ids`:
`_write_column_ids` is empty or has `_write_schema->num_columns()` entries, every
entry indexes a column of the tablet schema, and the write schema has no more
columns than the tablet schema.  It speaks of a writer whose schemas are loaded. -/
def write_column_ids_invariant (w : DeltaWriterImpl) : Bool :=
  match w._tablet_schema, w._write_schema with
  | some ts, some ws =>
    (w._write_column_ids.isEmpty || w._write_column_ids.length == ws.num_columns) &&
      w._write_column_ids.all (fun i => decide (0 ≤ i) && decide (i < (ts.num_columns : Int))) &&
      decide (ws.num_columns ≤ ts.num_columns)
  | _, _ => true

/-- The members that schema reconciliation owns. -/
def schema_part (w : DeltaWriterImpl) :
    Bool × Option TabletSchema × Option TabletSchema × List Int :=
  (w._mem_table_sink, w._tablet_schema, w._write_schema, w._write_column_ids)

/-- The members fixed by the constructor that `finish` reads. -/
def fixed_part (w : DeltaWriterImpl) : Int × Int × String × Bool × Int × Option (List SlotDescriptor) :=
  (w._tablet_id, w._txn_id, w._merge_condition, w._miss_auto_increment_column,
    w._immutable_tablet_size, w._slots)

/-- Two states agree on everything the txn-log construction depends on. -/
def same_for_log (s s' : State) : Prop :=
  schema_part s'.impl = schema_part s.impl ∧ fixed_part s'.impl = fixed_part s.impl ∧
    s'.put_txn_logs = s.put_txn_logs ∧ s'.preloaded = s.preloaded

/-- The field `auto_increment_partial_update_column_id` of the txn meta of an
`op_write`, unset when there is no txn meta. -/
def OpWrite.auto_increment_id (op : OpWrite) : Option Int :=
  op.txn_meta.bind (fun tm => tm.auto_increment_partial_update_column_id)

/-- The txn log `finish` hands to `put_txn_log` once the file loop produced `op1`. -/
def txn_log_of (env : Env) (w : DeltaWriterImpl) (op1 : OpWrite) : TxnLog :=
  { tablet_id := w._tablet_id
    txn_id := w._txn_id
    op_write := handle_txn_meta env w (set_rowset_stats env op1) }

/-- The run of `finish` gets as far as building the txn log: schema and writer
were built, the flushes drained and the tablet writer finished without error, the
txn id is not negative and the tablet lookup succeeded. -/
def finish_reaches_log (env : Env) (s : State) : Prop :=
  (finish_prepare env s).1.ok = true ∧ 0 ≤ s.impl._txn_id ∧ ∃ t, env.get_tablet 422 = .ok t

/-- Some row of the chunk's trailing column holds the op `UPSERT`. -/
def has_upsert_row (chunk : Chunk) : Prop :=
  ∃ i, i < chunk.num_rows ∧
    (chunk.get_column_by_index (chunk.num_columns - 1))[i]? = some TOpType.UPSERT

/-- Once the memtable sink exists, the tablet schema is loaded and the write schema
is either the tablet schema or its projection by `_write_column_ids`. -/
def schema_built (w : DeltaWriterImpl) : Prop :=
  w._mem_table_sink = true →
    ∃ ts, w._tablet_schema = some ts ∧
      (w._write_schema = some ts ∨
        w._write_schema = some (TabletSchema.create ts w._write_column_ids))

/-- The state `write` is in after the insertion, before it picks a flush action:
the memtable exists, `last_write_ts` is the current time and the selected rows
have joined the memtable. -/
def write_inserted (env : Env) (s : State) (chunk : Chunk) (indexes : List Nat)
    (indexes_size : Nat) : State :=
  let w1 := (ensure_mem_table env s.impl).2
  let w2 := { w1 with _last_write_ts := env.now }
  { s with impl := mem_table_insert w2 chunk indexes indexes_size }

/-- The state of `flush_async` after `_mem_table->finalize()` succeeded on the
memtable `mt`. -/
def finalized_state (s : State) (mt : MemTable) : State :=
  let mt1 := { mt with finalized := true }
  { s with impl := { s.impl with _mem_table := some mt1 } }

/-- The map `rss_rowid_map` of `fill_auto_increment_id` after the probe, for a
chunk of `n` rows. -/
def probed_rowids (env : Env) (n : Nat) : List Nat :=
  probe_rowids (List.replicate n rss_rowid_init) env.get_rowids_from_pkindex.2

/-- The spec's description of the filter and of `gen_num` for a result chunk of `n`
rows.  With cached metadata and a successful probe: the filter has length `n`,
entry `i` is `1` exactly when the upper 32 bits of row `i`'s rss-rowid are
`0xFFFFFFFF` and `0` otherwise, `gen_num` is the number of `1`s, and a row the probe
left untouched keeps the initial value and counts as new.  Otherwise the filter is
`n` ones and `gen_num == n`. -/
def spec_filter (env : Env) (n : Nat) : Prop :=
  (env.latest_cached_tablet_metadata.isSome = true → env.get_rowids_from_pkindex.1.ok = true →
    (auto_increment_filter env n).1.length = n ∧
    (∀ i, i < n → ∃ v, (probed_rowids env n)[i]? = some v ∧
      (auto_increment_filter env n).1[i]? = some (if v / 2 ^ 32 = 0xFFFFFFFF then 1 else 0)) ∧
    (auto_increment_filter env n).2 =
      ((auto_increment_filter env n).1.filter (fun b => b == 1)).length ∧
    (∀ i, i < n → env.get_rowids_from_pkindex.2.getD i none = none →
      (probed_rowids env n)[i]? = some rss_rowid_init ∧
        (auto_increment_filter env n).1[i]? = some 1)) ∧
  (¬ (env.latest_cached_tablet_metadata.isSome = true ∧
      env.get_rowids_from_pkindex.1.ok = true) →
    (auto_increment_filter env n).1 = List.replicate n 1 ∧ (auto_increment_filter env n).2 = n)

/-- The two members the immutable-tablet admission reads and writes. -/
def immutable_part (w : DeltaWriterImpl) : Int × Bool :=
  (w._immutable_tablet_size, w._is_immutable)

/-- The test under which `check_immutable()` and the flush callback set the flag:
immutable tracking is enabled and the `int64_t` sum of the tablet's size and the
in-writing bytes of the tablet exceeds `immutable_tablet_size`. -/
def exceeds_immutable_size (tablet : Tablet) (s : State) : Prop :=
  s.impl._immutable_tablet_size > 0 ∧
    int64_add tablet.data_size (s.mgr.in_writing_data_size s.impl._tablet_id)
      > s.impl._immutable_tablet_size

/-- The values an `int64_t` byte count takes: non-negative and below `2^63`. -/
def is_byte_count (n : Int) : Prop := 0 ≤ n ∧ n < 2 ^ 63

/-- The state of the flush callback once the segment's bytes are added to the
in-writing accounting, the moment at which it evaluates the immutable test. -/
def segment_accounted (d : FlushDone) (s : State) : State :=
  match d.seg with
  | some seg =>
    { s with mgr := s.mgr.add_in_writing_data_size s.impl._tablet_id s.impl._txn_id seg.data_size }
  | none => s

/-- What a call may do to the flag: `immutable_tablet_size` stays, a set flag stays
set, and the flag can only become set while immutable tracking is enabled. -/
def flag_step (s s' : State) : Prop :=
  s'.impl._immutable_tablet_size = s.impl._immutable_tablet_size ∧
    (s.impl._is_immutable = true → s'.impl._is_immutable = true) ∧
    (s'.impl._is_immutable = true →
      s.impl._is_immutable = true ∨ s.impl._immutable_tablet_size > 0)

/-- The calls other than `check_immutable()` and a run of the flush callback. -/
def Op.is_plain : Op → Prop
  | .check_immutable => False
  | .callback _ => False
  | _ => True

/-- What a call made under `env` may do to the flag: a `flag_step`, and nothing at
all when no flush callback runs during the call. -/
def flag_kept (env : Env) (s s' : State) : Prop :=
  flag_step s s' ∧
    (env.wait_callbacks = [] → immutable_part s'.impl = immutable_part s.impl)

/-! ## Concrete writers, environments and logs -/

/-- A valid builder: every required field is set. -/
def example_builder : DeltaWriterBuilder :=
  { _tablet_mgr := some 1, _tablet_id := 10, _txn_id := 20, _partition_id := 30, _index_id := 40,
    _mem_tracker := some 2 }

/-- A primary-key tablet schema with the columns `(id, a, b, c)`, sort key `id`. -/
def example_schema : TabletSchema :=
  { keys_type := KeysType.PRIMARY_KEYS
    columns := [⟨0, "id", true, false⟩, ⟨1, "a", false, false⟩, ⟨2, "b", false, false⟩,
      ⟨3, "c", false, false⟩]
    sort_key_idxes := [0] }

/-- A writer over `example_schema`, schema loaded, with the given slots. -/
def example_writer (slots : Option (List SlotDescriptor)) : DeltaWriterImpl :=
  { DeltaWriterImpl.new 100 (some 1) 10 20 30 slots "" false 0 0 (some 2) 0 40 with
    _tablet_schema := some example_schema }

/-- A tablet handle that serves the schema `ts`. -/
def example_tablet (ts : TabletSchema) : Tablet :=
  { data_size := 0
    get_schema_by_index_id := fun _ => .ok ts
    get_schema := .ok ts }

/-- An environment in which every external call succeeds on a tablet with schema
`ts`: no memory pressure, no full memtable, no files written. -/
def example_env (ts : TabletSchema) : Env :=
  { now := 1000
    create_flush_token := true
    get_tablet := fun _ => .ok (example_tablet ts)
    tablet_writer_open := Status.OK
    convert_schema := fun ws _ => ((ws.map (fun x => x.columns)).getD []).map (fun c => c.name)
    insert_full := false
    limit_exceeded := false
    parent_limit_exceeded := none
    finalize := Status.OK
    result_chunk := none
    latest_cached_tablet_metadata := none
    get_rowids_from_pkindex := (Status.OK, [])
    get_next_increment_id_interval := (Status.OK, [])
    fill_range := Status.OK
    submit := Status.OK
    wait_callbacks := []
    wait := Status.OK
    tablet_writer_finish := Status.OK
    files := []
    num_rows := 0
    data_size := 0
    rowset_txn_meta := none
    is_segment := fun f => ["0.dat", "1.dat", "2.dat"].contains f
    is_del := fun f => ["0.del", "1.del"].contains f
    gen_segment_filename := fun _ k => if k = 0 then "r0.dat" else "r1.dat"
    put_txn_log := Status.OK }

/-- A primary-key tablet schema with the columns `(id, a, b)`, sort key `id`. -/
def example_schema3 : TabletSchema :=
  { keys_type := KeysType.PRIMARY_KEYS
    columns := [⟨0, "id", true, false⟩, ⟨1, "a", false, false⟩, ⟨2, "b", false, false⟩]
    sort_key_idxes := [0] }

/-- The constructor's state for a writer with the given slots. -/
def example_state (slots : Option (List SlotDescriptor)) : State :=
  State.init 100 { example_builder with _slots := slots } {}

/-- A chunk of two rows and two columns. -/
def example_chunk : Chunk := ⟨[[1, 2], [7, 8]]⟩

/-- One `write()` on a writer whose slots `(id, nope)` name an unknown column. -/
def unknown_name_run : State :=
  run (example_state (some [⟨"id"⟩, ⟨"nope"⟩]))
    [(example_env example_schema, .write example_chunk [0, 1] 2)]

/-- A `write()` on which the tablet writer's `open()` fails, on a writer with slots
`(id, b)` over the schema `(id, a, b)`. -/
def failed_open_run : State :=
  run (example_state (some [⟨"id"⟩, ⟨"b"⟩]))
    [({ example_env example_schema3 with tablet_writer_open := ⟨StatusCode.IOError, "disk"⟩ },
      .write example_chunk [0, 1] 2)]

/-- The same writer after a second `write()`, on which every call succeeds. -/
def retry_run : State :=
  run failed_open_run [(example_env example_schema3, .write example_chunk [0, 1] 2)]

/-- A writer without slots over `example_schema`, opened, after one `write()`. -/
def written_state : State :=
  run (example_state none)
    [(example_env example_schema, .«open»),
      (example_env example_schema, .write example_chunk [0, 1] 2)]

/-- An environment whose tablet writer reports two segments around a delete file. -/
def files_env : Env :=
  { example_env example_schema with
    files := ["0.dat", "0.del", "1.dat"]
    num_rows := 20
    data_size := 4096 }

/-- The txn log `finish` puts for `written_state` under `files_env`. -/
def files_log : TxnLog :=
  { tablet_id := 10
    txn_id := 20
    op_write :=
      { rowset := { segments := ["0.dat", "1.dat"], num_rows := 20, data_size := 4096, overlapped := true }
        dels := ["0.del"] } }

/-- The schema `(id, a, b, c)` with primary key `id`, sort-keyed on column `b`. -/
def sort_key_schema : TabletSchema := { example_schema with sort_key_idxes := [2] }

/-- An opened writer with the slots `(id, a, "__op")`. -/
def op_slots_state : State :=
  run (example_state (some [⟨"id"⟩, ⟨"a"⟩, ⟨"__op"⟩])) [(example_env sort_key_schema, .«open»)]

/-- A chunk of one row whose trailing op column holds `UPSERT`. -/
def upsert_chunk : Chunk := ⟨[[1], [5], [TOpType.UPSERT]]⟩

/-- An opened writer with slots `(id, b)` and merge condition `"b"`, after one `write()`. -/
def merge_condition_state : State :=
  run (State.init 100
      { example_builder with _slots := some [⟨"id"⟩, ⟨"b"⟩], _merge_condition := "b" } {})
    [(example_env example_schema, .«open»),
      (example_env example_schema, .write example_chunk [0, 1] 2)]

/-- An opened writer with the slots `(id, b)` over `(id, a, b, c)`, after one `write()`. -/
def partial_update_state : State :=
  run (example_state (some [⟨"id"⟩, ⟨"b"⟩]))
    [(example_env example_schema, .«open»),
      (example_env example_schema, .write example_chunk [0, 1] 2)]

/-- An environment whose primary-key tablet writer wrote one segment and exposes
an empty `rowset_txn_meta`. -/
def partial_update_env : Env :=
  { example_env example_schema with
    files := ["0.dat"]
    num_rows := 2
    data_size := 128
    rowset_txn_meta := some {} }

/-- The txn log `finish` puts for `partial_update_state` under `partial_update_env`. -/
def partial_update_log : TxnLog :=
  { tablet_id := 10
    txn_id := 20
    op_write :=
      { rowset := { segments := ["0.dat"], num_rows := 2, data_size := 128, overlapped := false }
        rewrite_segments := ["r0.dat"]
        txn_meta := some
          { partial_update_column_ids := [0, 2], partial_update_column_unique_ids := [0, 2] } } }

/-- A primary-key schema `(id, v, ai)` whose third column is auto-increment. -/
def auto_increment_schema : TabletSchema :=
  { keys_type := KeysType.PRIMARY_KEYS
    columns := [⟨0, "id", true, false⟩, ⟨1, "v", false, false⟩, ⟨2, "ai", false, true⟩]
    sort_key_idxes := [0] }

/-- An opened writer with slots `(id, ai)` and `miss_auto_increment_column` set,
after one `write()`. -/
def auto_increment_state : State :=
  run (State.init 100
      { example_builder with
        _slots := some [⟨"id"⟩, ⟨"ai"⟩], _miss_auto_increment_column := true, _table_id := 5 } {})
    [(example_env auto_increment_schema, .«open»),
      (example_env auto_increment_schema, .write example_chunk [0, 1] 2)]

/-- An environment over `auto_increment_schema` whose tablet writer wrote one
segment and exposes an empty `rowset_txn_meta`. -/
def auto_increment_env : Env :=
  { example_env auto_increment_schema with
    files := ["0.dat"]
    num_rows := 2
    data_size := 128
    rowset_txn_meta := some {} }

/-- The txn log `finish` puts for `auto_increment_state` under `auto_increment_env`:
the auto-increment column is column 1 of the write schema `(id, ai)`. -/
def auto_increment_log : TxnLog :=
  { tablet_id := 10
    txn_id := 20
    op_write :=
      { rowset := { segments := ["0.dat"], num_rows := 2, data_size := 128, overlapped := false }
        rewrite_segments := ["r0.dat"]
        txn_meta := some
          { partial_update_column_ids := [0, 2]
            partial_update_column_unique_ids := [0, 2]
            auto_increment_partial_update_column_id := some 1 } } }

/-- A flush callback for a segment of `n` bytes during which the tablet lookup
finds a tablet of 100 bytes. -/
def segment_done (n : Int) : FlushDone :=
  { seg := some ⟨n⟩, eos := false, get_tablet := .ok { example_tablet example_schema with data_size := 100 } }

/-- A writer with `immutable_tablet_size = 1000`, opened, after a `write()` and a
`flush()` that emitted a segment of 600 bytes. -/
def immutable_state : State :=
  run (State.init 100 { example_builder with _immutable_tablet_size := 1000 } {})
    [(example_env example_schema, .«open»),
      (example_env example_schema, .write example_chunk [0, 1] 2),
      ({ example_env example_schema with wait_callbacks := [segment_done 600] }, .flush)]

/-- An environment in which the `wait()` of `close()` sees one more segment of 500
bytes complete and reports an error. -/
def failing_wait_env : Env :=
  { example_env example_schema with
    wait_callbacks := [segment_done 500]
    wait := ⟨StatusCode.IOError, "flush failed"⟩ }

/-- An opened writer over `(id, a, b, c)`, sort key `id`, whose slots list column
`b` before column `id`, then `"__op"`. -/
def unsorted_slots_state : State :=
  run (example_state (some [⟨"b"⟩, ⟨"id"⟩, ⟨"__op"⟩])) [(example_env example_schema, .«open»)]

/-- The same writer with the slots in schema order: `id`, `b`, `"__op"`. -/
def sorted_slots_state : State :=
  run (example_state (some [⟨"id"⟩, ⟨"b"⟩, ⟨"__op"⟩])) [(example_env example_schema, .«open»)]

/-- An environment in which the writer's own tracker reports limit exceeded, the
insertion reports a full memtable and the flush token's `wait()` reports an error. -/
def limit_exceeded_env : Env :=
  { example_env example_schema with
    limit_exceeded := true
    insert_full := true
    wait := ⟨StatusCode.IOError, "flush failed"⟩ }

/-- An environment in which the submission to the flush token reports an error. -/
def submit_fail_env : Env :=
  { example_env example_schema with submit := ⟨StatusCode.IOError, "queue closed"⟩ }

/-- A chunk of one column and `2 ^ 32` rows. -/
def huge_chunk : Chunk := ⟨[List.replicate (2 ^ 32) 0]⟩

/-- An environment with cached metadata whose probe finds rows 0 and 2 of a
five-row chunk and leaves rows 1, 3 and 4 untouched. -/
def probe_env : Env :=
  { example_env auto_increment_schema with
    latest_cached_tablet_metadata := some 7
    get_rowids_from_pkindex := (Status.OK, [some 12, none, some (3 * 2 ^ 32 + 5), none, none]) }

/-- A chunk of five rows. -/
def five_row_chunk : Chunk := ⟨[[1, 2, 3, 4, 5], [0, 0, 0, 0, 0]]⟩

/-- An environment whose tablet lookups find a tablet of `INT64_MAX` bytes. -/
def max_tablet_env : Env :=
  { example_env example_schema with
    get_tablet := fun _ => .ok { example_tablet example_schema with data_size := 2 ^ 63 - 1 } }

/-- An environment whose tablet lookups find a tablet of 500 bytes. -/
def big_tablet_env : Env :=
  { example_env example_schema with
    get_tablet := fun _ => .ok { example_tablet example_schema with data_size := 500 } }

/-- C1: `build()` returns invalid-argument exactly when the tablet manager is
null, `tablet_id == 0`, `txn_id == 0`, the memory tracker is null,
`max_buffer_size < 0`, `index_id == 0`, or `miss_auto_increment_column` is set with
`table_id == 0`; for every other parameter combination it returns a writer whose
`tablet_id()`, `txn_id()` and `partition_id()` are the values given to the builder. -/
theorem build_invalid_argument_iff (write_buffer_size : Int) (b : DeltaWriterBuilder) :
    ((∃ e, b.build write_buffer_size = .error e ∧ e.status.code = StatusCode.InvalidArgument) ↔
      b.missing_required) ∧
    (¬ b.missing_required →
      ∃ d, b.build write_buffer_size = .ok d ∧ d.tablet_id = b._tablet_id ∧
        d.txn_id = b._txn_id ∧ d.partition_id = b._partition_id) := by
  unfold DeltaWriterBuilder.missing_required DeltaWriterBuilder.build
  constructor
  · constructor
    · rintro ⟨e, h, _⟩
      by_contra hc
      push_neg at hc
      obtain ⟨h1, h2, h3, h4, h5, h6, h7⟩ := hc
      have h1n : b._tablet_mgr.isNone = false := by
        cases hm : b._tablet_mgr <;> simp_all
      have h4n : b._mem_tracker.isNone = false := by
        cases hm : b._mem_tracker <;> simp_all
      have h5n : ¬ b._max_buffer_size < 0 := not_lt.mpr h5
      have h7n : (b._miss_auto_increment_column && b._table_id == 0) = false := by
        cases hm : b._miss_auto_increment_column <;> simp_all
      simp [h1n, h2, h3, h4n, h5n, h6, h7n] at h
    · intro hc
      split_ifs <;> simp [Status.InvalidArgument]
      simp_all
  · intro hc
    push_neg at hc
    obtain ⟨h1, h2, h3, h4, h5, h6, h7⟩ := hc
    have h1n : b._tablet_mgr.isNone = false := by
      cases hm : b._tablet_mgr <;> simp_all
    have h4n : b._mem_tracker.isNone = false := by
      cases hm : b._mem_tracker <;> simp_all
    have h5n : ¬ b._max_buffer_size < 0 := not_lt.mpr h5
    have h7n : (b._miss_auto_increment_column && b._table_id == 0) = false := by
      cases hm : b._miss_auto_increment_column <;> simp_all
    simp [h1n, h2, h3, h4n, h5n, h6, h7n, DeltaWriter.tablet_id, DeltaWriter.txn_id,
      DeltaWriter.partition_id, DeltaWriterImpl.tablet_id, DeltaWriterImpl.txn_id,
      DeltaWriterImpl.partition_id, DeltaWriterImpl.new, DeltaWriterBuilder.construct]

/-- Witness of C1 on a builder with every required field set. -/
theorem build_invalid_argument_iff_witness :
    ¬ example_builder.missing_required ∧
    ∃ d, example_builder.build 100 = .ok d ∧ d.tablet_id = 10 ∧ d.txn_id = 20 ∧
      d.partition_id = 30 :=
  have h : ¬ example_builder.missing_required := by
    simp [DeltaWriterBuilder.missing_required, example_builder]
  ⟨h, (build_invalid_argument_iff 100 example_builder).2 h⟩

/-! ## Schema reconciliation: name resolution -/

theorem TabletSchema.field_index_neg_iff (ts : TabletSchema) (n : String) :
    ts.field_index n < 0 ↔ ∀ c ∈ ts.columns, c.name ≠ n := by
  unfold TabletSchema.field_index
  cases h : ts.columns.findIdx? (fun c => c.name == n) with
  | none =>
    simp only [List.findIdx?_eq_none_iff] at h
    simp only [Int.reduceNeg, Int.reduceLT, true_iff]
    intro c hc
    simpa using h c hc
  | some i =>
    have hi := List.findIdx?_eq_some_iff_getElem.mp h
    obtain ⟨hlt, hp, _⟩ := hi
    simp only [ne_eq]
    constructor
    · intro hneg
      omega
    · intro hall
      exact absurd (by simpa using hp) (hall _ (List.getElem_mem hlt))

theorem TabletSchema.field_index_nonneg (ts : TabletSchema) (n : String)
    (h : ¬ ts.field_index n < 0) :
    0 ≤ ts.field_index n ∧ ts.field_index n < (ts.num_columns : Int) ∧
      (ts.column (ts.field_index n).toNat).name = n := by
  unfold TabletSchema.field_index at h ⊢
  cases hf : ts.columns.findIdx? (fun c => c.name == n) with
  | none => simp [hf] at h
  | some i =>
    obtain ⟨hlt, hp, _⟩ := List.findIdx?_eq_some_iff_getElem.mp hf
    simp only [Int.toNat_ofNat, TabletSchema.column, TabletSchema.num_columns]
    refine ⟨Int.ofNat_nonneg i, by exact_mod_cast hlt, ?_⟩
    rw [List.getD_eq_getElem _ _ hlt]
    simpa using hp

theorem resolve_slots_none (ts : TabletSchema) :
    ∀ (slots : List SlotDescriptor) (ids ids' : List Int),
      resolve_slots ts slots ids = (none, ids') →
      ids' = ids ++ slots.map (fun s => ts.field_index s.col_name) ∧
        ∀ s ∈ slots, ¬ ts.field_index s.col_name < 0 := by
  intro slots
  induction slots with
  | nil =>
    intro ids ids' h
    simp [resolve_slots] at h
    simp [h]
  | cons s rest ih =>
    intro ids ids' h
    simp only [resolve_slots] at h
    split_ifs at h with hneg
    · simp at h
    · obtain ⟨h1, h2⟩ := ih _ _ h
      refine ⟨by simp [h1], ?_⟩
      intro s' hs'
      rcases List.mem_cons.mp hs' with rfl | hmem
      · exact hneg
      · exact h2 s' hmem

theorem resolve_slots_some (ts : TabletSchema) :
    ∀ (slots : List SlotDescriptor) (ids ids' : List Int) (err : Status),
      resolve_slots ts slots ids = (some err, ids') →
      err.code = StatusCode.InvalidArgument ∧ ∃ s ∈ slots, ts.field_index s.col_name < 0 := by
  intro slots
  induction slots with
  | nil =>
    intro ids ids' err h
    simp [resolve_slots] at h
  | cons s rest ih =>
    intro ids ids' err h
    simp only [resolve_slots] at h
    split_ifs at h with hneg
    · simp only [Prod.mk.injEq, Option.some.injEq] at h
      refine ⟨by rw [← h.1]; rfl, s, List.mem_cons_self _ _, hneg⟩
    · obtain ⟨h1, s', hs', hlt⟩ := ih _ _ _ h
      exact ⟨h1, s', List.mem_cons_of_mem _ hs', hlt⟩

/-! ## Schema reconciliation: full or partial update -/

theorem write_columns_eq_effective (slots : List SlotDescriptor) :
    write_columns slots = effective_write_column_count slots := by
  unfold write_columns effective_write_column_count has_op_column
  cases h : slots.getLast? with
  | none => simp
  | some s =>
    by_cases hs : s.col_name = "__op"
    · simp [hs]
    · simp [hs]

theorem write_columns_le_length (slots : List SlotDescriptor) :
    write_columns slots ≤ slots.length := by
  unfold write_columns
  split_ifs <;> omega

theorem init_write_schema_full (w : DeltaWriterImpl) (ts : TabletSchema)
    (hts : w._tablet_schema = some ts) (hfull : ¬ spec_partial_update ts w._slots) :
    w.init_write_schema.2 = { w with _write_schema := some ts } := by
  unfold DeltaWriterImpl.init_write_schema
  rw [hts]
  cases hs : w._slots with
  | none => rfl
  | some slots =>
    rw [hs] at hfull
    simp only [spec_partial_update, ← write_columns_eq_effective] at hfull
    have hc : (ts.keys_type == KeysType.PRIMARY_KEYS &&
        decide (write_columns slots < ts.num_columns)) = false := by
      by_cases hk : ts.keys_type = KeysType.PRIMARY_KEYS
      · have hge : ¬ write_columns slots < ts.num_columns := fun h => hfull ⟨hk, h⟩
        simp [hge]
      · simp [hk]
    simp [hc]

theorem init_write_schema_resolved (w : DeltaWriterImpl) (ts : TabletSchema)
    (slots : List SlotDescriptor) (ids : List Int)
    (hts : w._tablet_schema = some ts) (hslots : w._slots = some slots)
    (hpart : spec_partial_update ts (some slots))
    (hres : resolve_slots ts (slots.take (write_columns slots)) w._write_column_ids = (none, ids)) :
    w.init_write_schema.2._write_schema = some (TabletSchema.create ts ids) ∧
      w.init_write_schema.2._write_column_ids = ids ∧
      w.init_write_schema.2._tablet_schema = some ts := by
  unfold DeltaWriterImpl.init_write_schema
  simp only [spec_partial_update, ← write_columns_eq_effective] at hpart
  have hc : (ts.keys_type == KeysType.PRIMARY_KEYS &&
      decide (write_columns slots < ts.num_columns)) = true := by
    simp [hpart.1, hpart.2]
  simp [hts, hslots, hc, hres]

theorem init_write_schema_unresolved (w : DeltaWriterImpl) (ts : TabletSchema)
    (slots : List SlotDescriptor) (ids : List Int) (err : Status)
    (hts : w._tablet_schema = some ts) (hslots : w._slots = some slots)
    (hpart : spec_partial_update ts (some slots))
    (hres : resolve_slots ts (slots.take (write_columns slots)) w._write_column_ids
      = (some err, ids)) :
    w.init_write_schema =
      (err, { w with _write_schema := some ts, _write_column_ids := ids }) := by
  unfold DeltaWriterImpl.init_write_schema
  simp only [spec_partial_update, ← write_columns_eq_effective] at hpart
  have hc : (ts.keys_type == KeysType.PRIMARY_KEYS &&
      decide (write_columns slots < ts.num_columns)) = true := by
    simp [hpart.1, hpart.2]
  simp [hts, hslots, hc, hres]

theorem resolve_slots_cases (ts : TabletSchema) (slots : List SlotDescriptor) (ids : List Int) :
    (∃ ids', resolve_slots ts slots ids = (none, ids')) ∨
      (∃ err ids', resolve_slots ts slots ids = (some err, ids')) := by
  rcases h : resolve_slots ts slots ids with ⟨_ | err, ids'⟩
  · exact Or.inl ⟨ids', rfl⟩
  · exact Or.inr ⟨err, ids', rfl⟩

/-- On the first reconciliation of a writer (no column id recorded yet) the
write is a partial update, `write_schema.num_columns() < tablet_schema.num_columns()`
after an `init_write_schema` that resolved every name, exactly when slots are supplied,
`keys_type == PRIMARY_KEYS` and the effective write-column count is strictly below
the tablet schema's column count; in every other case the write schema equals the
tablet schema and `write_column_ids` is empty. -/
theorem init_write_schema_partial_iff (w : DeltaWriterImpl) (ts : TabletSchema)
    (hts : w._tablet_schema = some ts) (hids : w._write_column_ids = []) :
    (¬ spec_partial_update ts w._slots →
      w.init_write_schema.2._write_schema = some ts ∧
        w.init_write_schema.2._write_column_ids = []) ∧
    (w.init_write_schema.1.code ≠ StatusCode.InvalidArgument →
      (w.init_write_schema.2.is_partial_update = true ↔ spec_partial_update ts w._slots)) := by
  constructor
  · intro hfull
    rw [init_write_schema_full w ts hts hfull]
    exact ⟨rfl, hids⟩
  · intro hok
    by_cases hp : spec_partial_update ts w._slots
    · simp only [hp, iff_true]
      cases hs : w._slots with
      | none => simp [hs, spec_partial_update] at hp
      | some slots =>
        rw [hs] at hp
        rcases resolve_slots_cases ts (slots.take (write_columns slots)) w._write_column_ids
          with ⟨ids, hres⟩ | ⟨err, ids, hres⟩
        · obtain ⟨h1, h2, h3⟩ := init_write_schema_resolved w ts slots ids hts hs hp hres
          obtain ⟨hids', _⟩ := resolve_slots_none ts _ _ _ hres
          have hlen : ids.length = write_columns slots := by
            rw [hids', hids]
            simp [List.length_take, write_columns_le_length]
          simp only [spec_partial_update, ← write_columns_eq_effective] at hp
          simp [DeltaWriterImpl.is_partial_update, h1, h3, TabletSchema.create,
            TabletSchema.num_columns, hlen]
          exact hp.2
        · have hinit := init_write_schema_unresolved w ts slots ids err hts hs hp hres
          have hcode := (resolve_slots_some ts _ _ _ _ hres).1
          rw [hinit] at hok
          exact absurd hcode hok
    · simp only [hp, iff_false]
      rw [init_write_schema_full w ts hts hp]
      simp [DeltaWriterImpl.is_partial_update, hts]

/-- Slots `(id, b)` over `(id, a, b, c)` reconcile to a partial update. -/
theorem init_write_schema_partial_iff_example :
    (example_writer (some [⟨"id"⟩, ⟨"b"⟩])).init_write_schema.2.is_partial_update = true ↔
      spec_partial_update example_schema (example_writer (some [⟨"id"⟩, ⟨"b"⟩]))._slots :=
  (init_write_schema_partial_iff (example_writer (some [⟨"id"⟩, ⟨"b"⟩])) example_schema rfl rfl).2
    (by decide)

/-- For a partial update, the first `init_write_schema` succeeds only if each
of the first effective-count slot names is a column name of the tablet schema;
then `write_column_ids[i]` is the tablet-schema index of slot `i`'s name, in slot
order, and the write schema is the projection of the tablet schema by those ids;
if some slot name is not a column of the tablet schema the result is
invalid-argument. -/
theorem init_write_schema_partial_resolution (w : DeltaWriterImpl) (ts : TabletSchema)
    (slots : List SlotDescriptor)
    (hts : w._tablet_schema = some ts) (hids : w._write_column_ids = [])
    (hslots : w._slots = some slots) (hpart : spec_partial_update ts (some slots)) :
    (w.init_write_schema.1.ok = true →
      (∀ s ∈ slots.take (effective_write_column_count slots), ∃ c ∈ ts.columns, c.name = s.col_name) ∧
      w.init_write_schema.2._write_column_ids =
        (slots.take (effective_write_column_count slots)).map (fun s => ts.field_index s.col_name) ∧
      (∀ (i : Nat) (s : SlotDescriptor),
        (slots.take (effective_write_column_count slots))[i]? = some s →
        ∃ id, w.init_write_schema.2._write_column_ids[i]? = some id ∧ 0 ≤ id ∧
          id < (ts.num_columns : Int) ∧ (ts.column id.toNat).name = s.col_name) ∧
      ∃ ws, w.init_write_schema.2._write_schema = some ws ∧
        ws = TabletSchema.create ts w.init_write_schema.2._write_column_ids ∧
        ws.keys_type = ts.keys_type ∧
        ws.columns = w.init_write_schema.2._write_column_ids.map (fun id => ts.column id.toNat)) ∧
    ((∃ s ∈ slots.take (effective_write_column_count slots), ∀ c ∈ ts.columns, c.name ≠ s.col_name) →
      w.init_write_schema.1.code = StatusCode.InvalidArgument) := by
  rw [← write_columns_eq_effective]
  rcases resolve_slots_cases ts (slots.take (write_columns slots)) w._write_column_ids
    with ⟨ids, hres⟩ | ⟨err, ids, hres⟩
  · obtain ⟨h1, h2, _⟩ := init_write_schema_resolved w ts slots ids hts hslots hpart hres
    obtain ⟨hids', hall⟩ := resolve_slots_none ts _ _ _ hres
    rw [hids, List.nil_append] at hids'
    constructor
    · intro _
      rw [h1, h2]
      refine ⟨?_, hids', ?_, _, rfl, rfl, rfl, rfl⟩
      · intro s hs
        by_contra hno
        push_neg at hno
        exact hall s hs ((TabletSchema.field_index_neg_iff ts s.col_name).mpr hno)
      · intro i s his
        refine ⟨ts.field_index s.col_name, ?_, ?_⟩
        · rw [hids', List.getElem?_map, his]
          rfl
        · exact TabletSchema.field_index_nonneg ts s.col_name
            (hall s (List.getElem?_mem his))
    · rintro ⟨s, hs, hno⟩
      exact absurd ((TabletSchema.field_index_neg_iff ts s.col_name).mpr hno) (hall s hs)
  · have hinit := init_write_schema_unresolved w ts slots ids err hts hslots hpart hres
    have hcode := (resolve_slots_some ts _ _ _ _ hres).1
    rw [hinit]
    constructor
    · intro hok
      simp [Status.ok, hcode] at hok
    · intro _
      exact hcode

/-- Columns `(id, a, b, c)` with slots `(id, b)` give the ids `[0, 2]`. -/
theorem init_write_schema_partial_resolution_example :
    (example_writer (some [⟨"id"⟩, ⟨"b"⟩])).init_write_schema.2._write_column_ids = [0, 2] :=
  ((init_write_schema_partial_resolution (example_writer (some [⟨"id"⟩, ⟨"b"⟩])) example_schema
    [⟨"id"⟩, ⟨"b"⟩] rfl rfl rfl ⟨rfl, by decide⟩).1 (by decide)).2.1.trans (by decide)

/-! ## The documented invariant of `_write_column_ids` -/

/-- Every state produced by a call sequence from a reachable state is reachable. -/
theorem reachable_run (calls : List (Env × Op)) :
    ∀ s : State, Reachable s → Reachable (run s calls) := by
  induction calls with
  | nil => intro s h; exact h
  | cons c rest ih =>
    intro s h
    exact ih _ (Reachable.step c.1 c.2 h)

/-- C4 (the code breaks it): after a single `write()` whose slots `(id, nope)` name an
unknown column, reconciliation has returned invalid-argument and left
`write_column_ids = [0]` beside a write schema equal to the four-column tablet
schema; and after a `write()` on which the tablet writer's `open()` failed, a second
`write()` with slots `(id, b)` over the three-column schema `(id, a, b)` returns OK
with `write_column_ids = [0, 2, 0, 2]` and a write schema of four columns.  Both
states are reachable and the documented invariant is false in both. -/
theorem write_column_ids_invariant_broken :
    (Reachable unknown_name_run ∧
      (write (example_env example_schema) (example_state (some [⟨"id"⟩, ⟨"nope"⟩]))
        example_chunk [0, 1] 2).1.code = StatusCode.InvalidArgument ∧
      unknown_name_run.impl._write_column_ids = [0] ∧
      unknown_name_run.impl._write_schema = some example_schema ∧
      write_column_ids_invariant unknown_name_run.impl = false) ∧
    (Reachable retry_run ∧
      (write (example_env example_schema3) failed_open_run example_chunk [0, 1] 2).1 = Status.OK ∧
      retry_run.impl._write_column_ids = [0, 2, 0, 2] ∧
      retry_run.impl._tablet_schema.map (fun ts => ts.num_columns) = some 3 ∧
      retry_run.impl._write_schema.map (fun ws => ws.num_columns) = some 4 ∧
      write_column_ids_invariant retry_run.impl = false) := by
  refine ⟨⟨?_, ?_, ?_, ?_, ?_⟩, ⟨?_, ?_, ?_, ?_, ?_, ?_⟩⟩
  · exact reachable_run _ _ (Reachable.init _ _ _)
  · decide
  · decide
  · decide
  · decide
  · exact reachable_run _ _ (reachable_run _ _ (Reachable.init _ _ _))
  · decide
  · decide
  · decide
  · decide
  · decide

/-! ## Reconciliation run again after a failed attempt -/

/-- C3 (the code breaks it): on the same reachable writer the reconciliation run by
the second `write()` succeeds with `write_column_ids = [0, 2, 0, 2]`, where the
tablet-schema indices of the slots `(id, b)` are `[0, 2]`, and with the write
schema `(id, b, id, b)`, which is not the projection of the tablet schema onto the
slots' columns; the first reconciliation of that writer had given `[0, 2]` and
`(id, b)`. -/
theorem init_write_schema_resolution_retry :
    Reachable failed_open_run ∧
    failed_open_run.impl._tablet_schema = some example_schema3 ∧
    failed_open_run.impl._slots = some [⟨"id"⟩, ⟨"b"⟩] ∧
    spec_partial_update example_schema3 (some [⟨"id"⟩, ⟨"b"⟩]) ∧
    ([⟨"id"⟩, ⟨"b"⟩] : List SlotDescriptor).map
      (fun slot => example_schema3.field_index slot.col_name) = [0, 2] ∧
    failed_open_run.impl._write_column_ids = [0, 2] ∧
    failed_open_run.impl._write_schema.map (fun ws => ws.columns.map (fun c => c.name))
      = some ["id", "b"] ∧
    failed_open_run.impl.init_write_schema.1 = Status.OK ∧
    failed_open_run.impl.init_write_schema.2._write_column_ids = [0, 2, 0, 2] ∧
    failed_open_run.impl.init_write_schema.2._write_schema.map
      (fun ws => ws.columns.map (fun c => c.name)) = some ["id", "b", "id", "b"] ∧
    (write (example_env example_schema3) failed_open_run example_chunk [0, 1] 2).2.impl._write_column_ids
      = [0, 2, 0, 2] := by
  refine ⟨reachable_run _ _ (Reachable.init _ _ _), ?_, ?_, ⟨rfl, by decide⟩, ?_, ?_, ?_, ?_, ?_,
    ?_, ?_⟩
  · decide
  · decide
  · decide
  · decide
  · decide
  · decide
  · decide
  · decide
  · decide

/-! ## What the flush path leaves alone -/

theorem same_for_log_refl (s : State) : same_for_log s s := ⟨rfl, rfl, rfl, rfl⟩

theorem same_for_log_trans {a b c : State} (h1 : same_for_log a b) (h2 : same_for_log b c) :
    same_for_log a c :=
  ⟨h2.1.trans h1.1, h2.2.1.trans h1.2.1, h2.2.2.1.trans h1.2.2.1, h2.2.2.2.trans h1.2.2.2⟩

theorem flush_callback_same (d : FlushDone) (s : State) : same_for_log s (flush_callback d s) := by
  unfold flush_callback
  cases d.seg <;> cases d.get_tablet <;> simp only [] <;> split_ifs <;>
    exact ⟨rfl, rfl, rfl, rfl⟩

theorem foldl_flush_callback_same (ds : List FlushDone) :
    ∀ s : State, same_for_log s (ds.foldl (fun acc d => flush_callback d acc) s) := by
  induction ds with
  | nil => intro s; exact same_for_log_refl s
  | cons d rest ih =>
    intro s
    exact same_for_log_trans (flush_callback_same d s) (ih _)

theorem flush_token_wait_same (env : Env) (s : State) :
    same_for_log s (flush_token_wait env s).2 := by
  unfold flush_token_wait
  cases s.impl._flush_token with
  | none => exact same_for_log_refl s
  | some t =>
    have h := foldl_flush_callback_same env.wait_callbacks s
    exact ⟨h.1, h.2.1, h.2.2.1, h.2.2.2⟩

theorem fill_auto_increment_id_same (env : Env) (s : State) (chunk : Chunk) :
    same_for_log s (fill_auto_increment_id env s chunk).2 := by
  unfold fill_auto_increment_id
  cases env.get_tablet 496 with
  | error e => exact same_for_log_refl s
  | ok t =>
    simp only []
    by_cases h1 : (!env.get_next_increment_id_interval.1.ok) = true
    · rw [if_pos h1]
      exact ⟨rfl, rfl, rfl, rfl⟩
    · rw [if_neg h1]
      split
      · exact ⟨rfl, rfl, rfl, rfl⟩
      · by_cases h2 : (!env.fill_range.ok) = true
        · rw [if_pos h2]
          exact ⟨rfl, rfl, rfl, rfl⟩
        · rw [if_neg h2]
          exact ⟨rfl, rfl, rfl, rfl⟩

theorem fill_result_chunk_same (env : Env) (s : State) :
    same_for_log s (fill_result_chunk env s).2 := by
  unfold fill_result_chunk
  cases env.result_chunk with
  | none => exact same_for_log_refl s
  | some chunk =>
    simp only []
    by_cases h : s.impl._miss_auto_increment_column = true
    · rw [if_pos h]
      exact fill_auto_increment_id_same env s chunk
    · rw [if_neg h]
      exact same_for_log_refl s

theorem flush_async_same (env : Env) (s : State) : same_for_log s (flush_async env s).2 := by
  unfold flush_async
  cases hm : s.impl._mem_table with
  | none => exact same_for_log_refl s
  | some mt =>
    simp only []
    have hf := fill_result_chunk_same env
      { s with impl := { s.impl with _mem_table := some { mt with finalized := true } } }
    by_cases h1 : (!env.finalize.ok) = true
    · rw [if_pos h1]
      exact same_for_log_refl s
    · rw [if_neg h1]
      split_ifs
      · exact ⟨hf.1, hf.2.1, hf.2.2.1, hf.2.2.2⟩
      · exact ⟨hf.1, hf.2.1, hf.2.2.1, hf.2.2.2⟩

theorem flush_same (env : Env) (s : State) : same_for_log s (flush env s).2 := by
  unfold flush
  simp only []
  split_ifs
  · exact flush_async_same env s
  · exact same_for_log_trans (flush_async_same env s) (flush_token_wait_same env _)

/-! ## What schema construction leaves alone -/

theorem init_tablet_schema_fixed (env : Env) (w : DeltaWriterImpl) :
    fixed_part (init_tablet_schema env w).2 = fixed_part w := by
  unfold init_tablet_schema
  repeat' split
  all_goals rfl

theorem init_write_schema_fixed (w : DeltaWriterImpl) :
    fixed_part w.init_write_schema.2 = fixed_part w := by
  unfold DeltaWriterImpl.init_write_schema
  repeat' (first | rfl | split | (dsimp only))

theorem build_schema_and_writer_fixed (env : Env) (w : DeltaWriterImpl) :
    fixed_part (build_schema_and_writer env w).2 = fixed_part w := by
  unfold build_schema_and_writer
  have h1 := init_tablet_schema_fixed env w
  have h2 := init_write_schema_fixed (init_tablet_schema env w).2
  repeat' (first | rfl | exact h1 | exact h2.trans h1 | split | (dsimp only))

theorem finish_prepare_logs (env : Env) (s : State) :
    (finish_prepare env s).2.put_txn_logs = s.put_txn_logs ∧
      (finish_prepare env s).2.preloaded = s.preloaded ∧
      fixed_part (finish_prepare env s).2.impl = fixed_part s.impl := by
  unfold finish_prepare
  have hb := build_schema_and_writer_fixed env s.impl
  have hf := flush_same env { s with impl := (build_schema_and_writer env s.impl).2 }
  repeat' (first
    | exact ⟨rfl, rfl, hb⟩
    | exact ⟨hf.2.2.1, hf.2.2.2, hf.2.1.trans hb⟩
    | split
    | (dsimp only))

/-! ## The txn log built by `finish` -/

theorem classify_files_ok (is_segment is_del : String → Bool) :
    ∀ (fs : List String) (op op' : OpWrite), classify_files is_segment is_del fs op = .ok op' →
      op'.rowset.segments = op.rowset.segments ++ fs.filter is_segment ∧
      op'.dels = op.dels ++ fs.filter (fun f => !is_segment f) ∧
      (∀ f ∈ fs, is_segment f = true ∨ is_del f = true) ∧
      op'.rewrite_segments = op.rewrite_segments ∧ op'.txn_meta = op.txn_meta := by
  intro fs
  induction fs with
  | nil =>
    intro op op' h
    simp only [classify_files, Except.ok.injEq] at h
    subst h
    simp
  | cons f rest ih =>
    intro op op' h
    simp only [classify_files] at h
    by_cases hs : is_segment f = true
    · rw [if_pos hs] at h
      obtain ⟨h1, h2, h3, h4, h5⟩ := ih _ _ h
      refine ⟨by simp [h1, hs], by simp [h2, hs], ?_, h4, h5⟩
      intro g hg
      rcases List.mem_cons.mp hg with rfl | hmem
      · exact Or.inl hs
      · exact h3 g hmem
    · rw [if_neg hs] at h
      by_cases hd : is_del f = true
      · rw [if_pos hd] at h
        obtain ⟨h1, h2, h3, h4, h5⟩ := ih _ _ h
        refine ⟨by simp [h1, hs], by simp [h2, hs], ?_, h4, h5⟩
        intro g hg
        rcases List.mem_cons.mp hg with rfl | hmem
        · exact Or.inr hd
        · exact h3 g hmem
      · rw [if_neg hd] at h
        exact absurd h (by simp)

theorem classify_files_error (is_segment is_del : String → Bool) :
    ∀ (fs : List String) (op : OpWrite) (e : Status),
      classify_files is_segment is_del fs op = .error e →
      e.code = StatusCode.InternalError ∧
        ∃ f ∈ fs, is_segment f = false ∧ is_del f = false := by
  intro fs
  induction fs with
  | nil =>
    intro op e h
    simp [classify_files] at h
  | cons f rest ih =>
    intro op e h
    simp only [classify_files] at h
    by_cases hs : is_segment f = true
    · rw [if_pos hs] at h
      obtain ⟨h1, g, hg, h2⟩ := ih _ _ h
      exact ⟨h1, g, List.mem_cons_of_mem _ hg, h2⟩
    · rw [if_neg hs] at h
      by_cases hd : is_del f = true
      · rw [if_pos hd] at h
        obtain ⟨h1, g, hg, h2⟩ := ih _ _ h
        exact ⟨h1, g, List.mem_cons_of_mem _ hg, h2⟩
      · rw [if_neg hd] at h
        simp only [Except.error.injEq] at h
        refine ⟨by rw [← h]; rfl, f, List.mem_cons_self _ _, ?_, ?_⟩
        · simpa using hs
        · simpa using hd

theorem add_rewrite_segments_spec (gen : Int → Nat → String) (txn_id : Int) :
    ∀ (n : Nat) (op : OpWrite),
      (add_rewrite_segments gen txn_id n op).rewrite_segments.length
          = op.rewrite_segments.length + n ∧
        (add_rewrite_segments gen txn_id n op).rowset = op.rowset ∧
        (add_rewrite_segments gen txn_id n op).dels = op.dels ∧
        (add_rewrite_segments gen txn_id n op).txn_meta = op.txn_meta := by
  intro n
  induction n with
  | zero => intro op; simp [add_rewrite_segments]
  | succ k ih =>
    intro op
    simp only [add_rewrite_segments]
    obtain ⟨h1, h2, h3, h4⟩ := ih
      { op with rewrite_segments := op.rewrite_segments ++ [gen txn_id op.rewrite_segments.length] }
    refine ⟨?_, h2, h3, h4⟩
    rw [h1]
    simp only [List.length_append, List.length_singleton]
    omega

theorem foldl_partial_update_columns (ws : TabletSchema) (ids : List Int) :
    ∀ (l : List Nat) (m : RowsetTxnMetaPB),
      (l.foldl (fun m i =>
        { m with
          partial_update_column_ids := m.partial_update_column_ids ++ [ids.getD i 0]
          partial_update_column_unique_ids :=
            m.partial_update_column_unique_ids ++ [(ws.column i).unique_id] }) m)
      = { m with
          partial_update_column_ids := m.partial_update_column_ids ++ l.map (fun i => ids.getD i 0)
          partial_update_column_unique_ids :=
            m.partial_update_column_unique_ids ++ l.map (fun i => (ws.column i).unique_id) } := by
  intro l
  induction l with
  | nil => intro m; simp
  | cons a rest ih =>
    intro m
    simp only [List.foldl_cons, ih, List.map_cons, List.append_assoc, List.singleton_append]

theorem range_map_getD {α : Type} (l : List α) (d : α) :
    (List.range l.length).map (fun i => l.getD i d) = l := by
  apply List.ext_getElem
  · simp
  · intro i h1 h2
    simp [List.getElem?_eq_getElem h2]

theorem add_partial_update_columns_spec (ws : TabletSchema) (ids : List Int) (m : RowsetTxnMetaPB)
    (hlen : ids.length = ws.columns.length) :
    add_partial_update_columns ws ids m
      = { m with
          partial_update_column_ids := m.partial_update_column_ids ++ ids
          partial_update_column_unique_ids :=
            m.partial_update_column_unique_ids ++ ws.columns.map (fun c => c.unique_id) } := by
  unfold add_partial_update_columns
  rw [foldl_partial_update_columns]
  have h1 : (List.range ws.columns.length).map (fun i => ids.getD i 0) = ids := by
    rw [← hlen]
    exact range_map_getD ids 0
  have h2 : (List.range ws.columns.length).map (fun i => (ws.column i).unique_id)
      = ws.columns.map (fun c => c.unique_id) := by
    have := range_map_getD ws.columns default
    conv_rhs => rw [← this]
    simp [TabletSchema.column, List.map_map, Function.comp_def]
  rw [h1, h2]

theorem fill_txn_meta_rowset (env : Env) (w : DeltaWriterImpl) (ws : TabletSchema) (p : Bool)
    (m : RowsetTxnMetaPB) (op : OpWrite) :
    (fill_txn_meta env w ws p m op).rowset = op.rowset ∧
      (fill_txn_meta env w ws p m op).dels = op.dels := by
  unfold fill_txn_meta
  cases p <;> by_cases hm : w._merge_condition != "" <;>
    by_cases ha : w._miss_auto_increment_column = true <;>
    cases hf : ws.columns.findIdx? (fun c => c.is_auto_increment) <;>
    simp [hm, ha, hf, add_rewrite_segments_spec] <;>
    split_ifs <;> simp [add_rewrite_segments_spec]

theorem fill_txn_meta_rewrite (env : Env) (w : DeltaWriterImpl) (ws : TabletSchema) (p : Bool)
    (m : RowsetTxnMetaPB) (op : OpWrite) (h0 : op.rewrite_segments = [])
    (h : p = true ∨ w._miss_auto_increment_column = true) :
    (fill_txn_meta env w ws p m op).rewrite_segments.length = op.rowset.segments.length := by
  unfold fill_txn_meta
  cases p <;> by_cases hm : w._merge_condition != "" <;>
    by_cases ha : w._miss_auto_increment_column = true <;>
    cases hf : ws.columns.findIdx? (fun c => c.is_auto_increment) <;>
    simp [hm, ha, hf, h0, add_rewrite_segments_spec] at h ⊢ <;>
    split_ifs <;> simp_all [add_rewrite_segments_spec]

theorem fill_txn_meta_partial_columns (env : Env) (w : DeltaWriterImpl) (ws : TabletSchema)
    (m : RowsetTxnMetaPB) (op : OpWrite) (hlen : w._write_column_ids.length = ws.columns.length) :
    ∃ tm, (fill_txn_meta env w ws true m op).txn_meta = some tm ∧
      tm.partial_update_column_ids = m.partial_update_column_ids ++ w._write_column_ids ∧
      tm.partial_update_column_unique_ids =
        m.partial_update_column_unique_ids ++ ws.columns.map (fun c => c.unique_id) := by
  unfold fill_txn_meta
  by_cases hm : w._merge_condition != "" <;>
    by_cases ha : w._miss_auto_increment_column = true <;>
    cases hf : ws.columns.findIdx? (fun c => c.is_auto_increment) <;>
    simp [hm, ha, hf, add_rewrite_segments_spec, mutable_txn_meta,
      add_partial_update_columns_spec ws w._write_column_ids m hlen] <;>
    split_ifs <;>
    simp [add_rewrite_segments_spec, mutable_txn_meta,
      add_partial_update_columns_spec ws w._write_column_ids m hlen]

theorem add_partial_update_columns_auto (ws : TabletSchema) (ids : List Int)
    (m : RowsetTxnMetaPB) :
    (add_partial_update_columns ws ids m).auto_increment_partial_update_column_id
      = m.auto_increment_partial_update_column_id := by
  unfold add_partial_update_columns
  rw [foldl_partial_update_columns]

theorem fill_txn_meta_auto_increment (env : Env) (w : DeltaWriterImpl) (ws : TabletSchema)
    (p : Bool) (m : RowsetTxnMetaPB) (op : OpWrite) (h0 : op.txn_meta = none)
    (hmiss : w._miss_auto_increment_column = true) :
    (fill_txn_meta env w ws p m op).auto_increment_id =
      match ws.columns.findIdx? (fun c => c.is_auto_increment) with
      | some i => some (i : Int)
      | none => if p then m.auto_increment_partial_update_column_id else none := by
  unfold fill_txn_meta OpWrite.auto_increment_id
  cases p <;> by_cases hm : w._merge_condition != "" <;>
    cases hf : ws.columns.findIdx? (fun c => c.is_auto_increment) <;>
    simp [hm, hmiss, hf, h0, add_rewrite_segments_spec, mutable_txn_meta,
      add_partial_update_columns_auto] <;>
    split_ifs <;>
    simp [add_rewrite_segments_spec, mutable_txn_meta, h0, add_partial_update_columns_auto]

/-- The outcomes of the txn-log part of `finish`: the writer is left as it was,
and either nothing is put (the file loop failed, or partial update met a merge
condition) or exactly one log is put. -/
theorem finish_write_txn_log_cases (env : Env) (s : State) :
    (finish_write_txn_log env s).2.impl = s.impl ∧
    (((finish_write_txn_log env s).2.put_txn_logs = s.put_txn_logs ∧
        (finish_write_txn_log env s).1.ok = false ∧
        ((∃ e, classify_files env.is_segment env.is_del env.files {} = .error e ∧
            (finish_write_txn_log env s).1 = e) ∨
          (∃ op1, classify_files env.is_segment env.is_del env.files {} = .ok op1 ∧
            (s.impl.is_partial_update && !(s.impl._merge_condition == "")) = true ∧
            (finish_write_txn_log env s).1 =
              Status.NotSupported "partial update and condition update at the same time"))) ∨
      (∃ op1, classify_files env.is_segment env.is_del env.files {} = .ok op1 ∧
        (s.impl.is_partial_update && !(s.impl._merge_condition == "")) = false ∧
        (finish_write_txn_log env s).2.put_txn_logs = s.put_txn_logs ++ [txn_log_of env s.impl op1] ∧
        (finish_write_txn_log env s).1 = (if env.put_txn_log.ok then Status.OK else env.put_txn_log))) := by
  unfold finish_write_txn_log
  cases hc : classify_files env.is_segment env.is_del env.files {} with
  | error e =>
    have he := (classify_files_error _ _ _ _ _ hc).1
    refine ⟨rfl, Or.inl ⟨rfl, ?_, Or.inl ⟨e, rfl, rfl⟩⟩⟩
    simp [Status.ok, he]
  | ok op1 =>
    simp only []
    by_cases hp : (s.impl.is_partial_update && !(s.impl._merge_condition == "")) = true
    · rw [if_pos hp]
      exact ⟨rfl, Or.inl ⟨rfl, rfl, Or.inr ⟨op1, rfl, hp, rfl⟩⟩⟩
    · rw [if_neg hp]
      have hp' : (s.impl.is_partial_update && !(s.impl._merge_condition == "")) = false := by
        simpa using hp
      by_cases hk : ((s.impl._tablet_schema.getD ⟨KeysType.DUP_KEYS, [], []⟩).keys_type
          == KeysType.PRIMARY_KEYS) = true <;>
        by_cases ho : env.put_txn_log.ok = true <;>
        simp [hk, ho, hp', txn_log_of]

theorem finish_prepare_txn_id (env : Env) (s : State) :
    (finish_prepare env s).2.impl._txn_id = s.impl._txn_id := by
  have h := (finish_prepare_logs env s).2.2
  simp only [fixed_part, Prod.mk.injEq] at h
  exact h.2.1

theorem finish_prepare_merge_condition (env : Env) (s : State) :
    (finish_prepare env s).2.impl._merge_condition = s.impl._merge_condition := by
  have h := (finish_prepare_logs env s).2.2
  simp only [fixed_part, Prod.mk.injEq] at h
  exact h.2.2.1

theorem finish_prepare_miss_auto_increment (env : Env) (s : State) :
    (finish_prepare env s).2.impl._miss_auto_increment_column
      = s.impl._miss_auto_increment_column := by
  have h := (finish_prepare_logs env s).2.2
  simp only [fixed_part, Prod.mk.injEq] at h
  exact h.2.2.2.1

/-- A `finish(kWriteTxnLog)` either runs the txn-log part on the prepared state, or
stops before it with an error and without putting a log. -/
theorem finish_cases (env : Env) (s : State) :
    (finish_reaches_log env s ∧
        finish env s FinishMode.kWriteTxnLog = finish_write_txn_log env (finish_prepare env s).2) ∨
      (¬ finish_reaches_log env s ∧
        (finish env s FinishMode.kWriteTxnLog).2.put_txn_logs = s.put_txn_logs ∧
        (finish env s FinishMode.kWriteTxnLog).1.ok = false) := by
  unfold finish finish_reaches_log
  simp only []
  have hl := (finish_prepare_logs env s).1
  have ht := finish_prepare_txn_id env s
  by_cases h1 : (finish_prepare env s).1.ok = true
  · have hn1 : ¬ ((!(finish_prepare env s).1.ok) = true) := by simp [h1]
    have hm : ¬ ((FinishMode.kWriteTxnLog == FinishMode.kDontWriteTxnLog) = true) := by decide
    rw [if_neg hn1, if_neg hm]
    by_cases h2 : (finish_prepare env s).2.impl._txn_id < 0
    · rw [if_pos h2]
      right
      exact ⟨fun h => absurd h.2.1 (not_le.mpr (ht ▸ h2)), hl, rfl⟩
    · rw [if_neg h2]
      cases h3 : env.get_tablet 422 with
      | error e =>
        right
        exact ⟨fun h => by simp at h, hl, e.not_ok⟩
      | ok t =>
        left
        exact ⟨⟨h1, ht ▸ not_lt.mp h2, t, rfl⟩, rfl⟩
  · have hp1 : (!(finish_prepare env s).1.ok) = true := by simpa using h1
    rw [if_pos hp1]
    right
    exact ⟨fun h => absurd h.1 h1, hl, by simpa using h1⟩

theorem handle_txn_meta_rowset (env : Env) (w : DeltaWriterImpl) (op : OpWrite) :
    (handle_txn_meta env w op).rowset = op.rowset ∧ (handle_txn_meta env w op).dels = op.dels := by
  unfold handle_txn_meta
  cases env.rowset_txn_meta with
  | none => exact ⟨rfl, rfl⟩
  | some m => exact fill_txn_meta_rowset _ _ _ _ _ _

theorem filter_not_segment_eq (is_segment is_del : String → Bool) (fs : List String)
    (h : ∀ f ∈ fs, is_segment f = true ∨ is_del f = true) :
    fs.filter (fun f => !is_segment f) = fs.filter (fun f => !is_segment f && is_del f) := by
  apply List.filter_congr
  intro f hf
  rcases h f hf with h1 | h1 <;> simp [h1]

/-- C5: whenever `finish(kWriteTxnLog)` puts a txn log, its segments are the files
satisfying `is_segment` and its dels the remaining files, all satisfying `is_del`,
both in their original order, so their counts add up to the number of files, and
`overlapped` is `segments_size > 1`; if some file is neither a segment nor a delete
file, no log is put and `finish` fails, with internal-error when it got as far as
the file loop; and when it gets that far with every file classified and no
partial-update/merge-condition conflict, exactly one log is put. -/
theorem finish_txn_log_files (env : Env) (s : State) :
    (∀ log, (finish env s FinishMode.kWriteTxnLog).2.put_txn_logs = s.put_txn_logs ++ [log] →
      log.op_write.rowset.segments = env.files.filter env.is_segment ∧
      log.op_write.dels = env.files.filter (fun f => !env.is_segment f && env.is_del f) ∧
      log.op_write.rowset.segments.length + log.op_write.dels.length = env.files.length ∧
      log.op_write.rowset.overlapped = decide (log.op_write.rowset.segments.length > 1)) ∧
    ((∃ f ∈ env.files, env.is_segment f = false ∧ env.is_del f = false) →
      (finish env s FinishMode.kWriteTxnLog).2.put_txn_logs = s.put_txn_logs ∧
      (finish env s FinishMode.kWriteTxnLog).1.ok = false ∧
      (finish_reaches_log env s →
        (finish env s FinishMode.kWriteTxnLog).1.code = StatusCode.InternalError)) ∧
    (finish_reaches_log env s → (∀ f ∈ env.files, env.is_segment f = true ∨ env.is_del f = true) →
      ((finish_prepare env s).2.impl.is_partial_update &&
        !((finish_prepare env s).2.impl._merge_condition == "")) = false →
      ∃ log, (finish env s FinishMode.kWriteTxnLog).2.put_txn_logs = s.put_txn_logs ++ [log]) := by
  have hl := (finish_prepare_logs env s).1
  rcases finish_cases env s with ⟨hr, hfin⟩ | ⟨hnr, hput, hok⟩
  · rw [hfin]
    obtain ⟨_, hcase⟩ := finish_write_txn_log_cases env (finish_prepare env s).2
    rw [hl] at hcase
    refine ⟨?_, ?_, ?_⟩
    · intro log hlog
      rcases hcase with ⟨hsame, _, _⟩ | ⟨op1, hc, _, hput, _⟩
      · rw [hsame] at hlog
        simp at hlog
      · rw [hput] at hlog
        have hlog' : txn_log_of env (finish_prepare env s).2.impl op1 = log := by
          simpa using hlog
        obtain ⟨h1, h2, h3, _, _⟩ := classify_files_ok _ _ _ _ _ hc
        have hrow := handle_txn_meta_rowset env (finish_prepare env s).2.impl
          (set_rowset_stats env op1)
        have hR : log.op_write.rowset = (set_rowset_stats env op1).rowset := by
          rw [← hlog']
          exact hrow.1
        have hD : log.op_write.dels = (set_rowset_stats env op1).dels := by
          rw [← hlog']
          exact hrow.2
        have hseg : log.op_write.rowset.segments = env.files.filter env.is_segment := by
          rw [hR]
          simpa [set_rowset_stats] using h1
        have hdel : log.op_write.dels = env.files.filter (fun f => !env.is_segment f) := by
          rw [hD]
          simpa [set_rowset_stats] using h2
        have hov : log.op_write.rowset.overlapped
            = decide (log.op_write.rowset.segments.length > 1) := by
          rw [hR]
          simp [set_rowset_stats]
        refine ⟨hseg, ?_, ?_, hov⟩
        · rw [hdel]
          exact filter_not_segment_eq _ _ _ h3
        · rw [hseg, hdel]
          exact (List.length_eq_length_filter_add env.is_segment).symm
    · rintro ⟨f, hf, hs, hd⟩
      rcases hcase with ⟨hsame, hnok, hwhy⟩ | ⟨op1, hc, _, _, _⟩
      · refine ⟨hsame, hnok, fun _ => ?_⟩
        rcases hwhy with ⟨e, hc, hst⟩ | ⟨op1, hc, _, _⟩
        · rw [hst]
          exact (classify_files_error _ _ _ _ _ hc).1
        · obtain ⟨_, _, h3, _, _⟩ := classify_files_ok _ _ _ _ _ hc
          rcases h3 f hf with h | h
          · rw [hs] at h; exact absurd h (by simp)
          · rw [hd] at h; exact absurd h (by simp)
      · obtain ⟨_, _, h3, _, _⟩ := classify_files_ok _ _ _ _ _ hc
        rcases h3 f hf with h | h
        · rw [hs] at h; exact absurd h (by simp)
        · rw [hd] at h; exact absurd h (by simp)
    · intro _ hall hnp
      rcases hcase with ⟨_, _, hwhy⟩ | ⟨op1, _, _, hput, _⟩
      · rcases hwhy with ⟨e, hc, _⟩ | ⟨op1, _, hp, _⟩
        · obtain ⟨_, f, hf, hs, hd⟩ := classify_files_error _ _ _ _ _ hc
          rcases hall f hf with h | h
          · rw [hs] at h; exact absurd h (by simp)
          · rw [hd] at h; exact absurd h (by simp)
        · rw [hp] at hnp
          exact absurd hnp (by simp)
      · exact ⟨_, hput⟩
  · refine ⟨?_, ?_, ?_⟩
    · intro log hlog
      rw [hput] at hlog
      simp at hlog
    · intro _
      exact ⟨hput, hok, fun h => absurd h hnr⟩
    · intro h
      exact absurd h hnr

/-- Witness of C5: with the files `0.dat, 0.del, 1.dat` the log that `finish` puts
holds the segments `0.dat, 1.dat` and the delete file `0.del`. -/
theorem finish_txn_log_files_witness :
    (finish files_env written_state FinishMode.kWriteTxnLog).2.put_txn_logs
        = written_state.put_txn_logs ++ [files_log] ∧
      files_log.op_write.rowset.segments = files_env.files.filter files_env.is_segment ∧
      files_log.op_write.rowset.segments.length + files_log.op_write.dels.length = 3 :=
  have h : (finish files_env written_state FinishMode.kWriteTxnLog).2.put_txn_logs
      = written_state.put_txn_logs ++ [files_log] := by decide
  ⟨h, ((finish_txn_log_files files_env written_state).1 files_log h).1,
    ((finish_txn_log_files files_env written_state).1 files_log h).2.2.1.trans (by decide)⟩

/-! ## The partial-update guard of `write` -/

theorem init_tablet_schema_last_write_ts (env : Env) (w : DeltaWriterImpl) :
    (init_tablet_schema env w).2._last_write_ts = w._last_write_ts ∧
      (init_tablet_schema env w).2._mem_table = w._mem_table := by
  unfold init_tablet_schema
  repeat' (first | exact ⟨rfl, rfl⟩ | split)

theorem init_write_schema_last_write_ts (w : DeltaWriterImpl) :
    w.init_write_schema.2._last_write_ts = w._last_write_ts ∧
      w.init_write_schema.2._mem_table = w._mem_table := by
  unfold DeltaWriterImpl.init_write_schema
  repeat' (first | exact ⟨rfl, rfl⟩ | split | (dsimp only))

theorem build_schema_and_writer_last_write_ts (env : Env) (w : DeltaWriterImpl) :
    (build_schema_and_writer env w).2._last_write_ts = w._last_write_ts ∧
      (build_schema_and_writer env w).2._mem_table = w._mem_table := by
  unfold build_schema_and_writer
  have h1 := init_tablet_schema_last_write_ts env w
  have h2 := init_write_schema_last_write_ts (init_tablet_schema env w).2
  repeat' (first
    | exact ⟨rfl, rfl⟩
    | exact h1
    | exact ⟨h2.1.trans h1.1, h2.2.trans h1.2⟩
    | split
    | (dsimp only))

/-- After the first step of `write` the write timestamp is untouched and the
memtable is the one the writer had, or a new one without rows. -/
theorem ensure_mem_table_spec (env : Env) (w : DeltaWriterImpl)
    (hok : (ensure_mem_table env w).1.ok = true) :
    (ensure_mem_table env w).2._last_write_ts = w._last_write_ts ∧
      ((∃ mt, w._mem_table = some mt ∧ (ensure_mem_table env w).2._mem_table = some mt) ∨
        (w._mem_table = none ∧
          ∃ mt, (ensure_mem_table env w).2._mem_table = some mt ∧ mt.rows = [])) := by
  unfold ensure_mem_table at hok ⊢
  cases hm : w._mem_table with
  | some mt => simp [hm]
  | none =>
    have hb := build_schema_and_writer_last_write_ts env w
    simp only [hm, Option.isNone_none, if_true] at hok ⊢
    unfold reset_memtable at hok ⊢
    simp only [] at hok ⊢
    by_cases h1 : (!(build_schema_and_writer env w).1.ok) = true
    · rw [if_pos h1] at hok
      simp only [Bool.not_eq_true', ] at h1
      rw [h1] at hok
      exact absurd hok (by simp)
    · rw [if_neg h1]
      split_ifs <;> exact ⟨hb.1, Or.inr ⟨trivial, _, rfl, rfl⟩⟩

theorem check_partial_update_with_sort_key_spec (w : DeltaWriterImpl) (chunk : Chunk)
    (slots : List SlotDescriptor) (hflag : w._partial_schema_with_sort_key = true)
    (hslots : w._slots = some slots) (hop : has_op_column slots = true) :
    (has_upsert_row chunk → check_partial_update_with_sort_key w chunk =
        Status.NotSupported "table with sort key do not support partial update") ∧
      (¬ has_upsert_row chunk → check_partial_update_with_sort_key w chunk = Status.OK) := by
  unfold check_partial_update_with_sort_key has_upsert_row
  simp only [hflag, hslots, Option.map_some', hop, Bool.and_self, if_true]
  constructor
  · rintro ⟨i, hi, hu⟩
    have hany : (List.range chunk.num_rows).any
        (fun i => (chunk.get_column_by_index (chunk.num_columns - 1)).get? i
          == some TOpType.UPSERT) = true := by
      rw [List.any_eq_true]
      exact ⟨i, List.mem_range.mpr hi, by simpa using hu⟩
    rw [if_pos hany]
    rfl
  · intro hno
    have hany : ¬ (List.range chunk.num_rows).any
        (fun i => (chunk.get_column_by_index (chunk.num_columns - 1)).get? i
          == some TOpType.UPSERT) = true := by
      rw [List.any_eq_true]
      rintro ⟨i, hi, hu⟩
      exact hno ⟨i, List.mem_range.mp hi, by simpa using hu⟩
    rw [if_neg hany]
    rfl

/-- C6: when `partial_schema_with_sort_key` is set and the last slot is `"__op"`
(on the writer as `write()` finds it once its memtable exists), the guard returns
not-supported "table with sort key do not support partial update" exactly when
some row of the chunk's trailing op column is an `UPSERT`, and OK otherwise (so a
chunk of `DELETE` rows passes and `write()` goes on to insert it); when the guard
fails `write()` returns that status, the memtable holds no row of the chunk (it is
the memtable the writer had, or a new empty one), and `last_write_ts` is unchanged. -/
theorem write_partial_update_guard (env : Env) (s : State) (chunk : Chunk) (indexes : List Nat)
    (indexes_size : Nat) (slots : List SlotDescriptor)
    (hmt : (ensure_mem_table env s.impl).1.ok = true)
    (hflag : (ensure_mem_table env s.impl).2._partial_schema_with_sort_key = true)
    (hslots : (ensure_mem_table env s.impl).2._slots = some slots)
    (hop : has_op_column slots = true) :
    (check_partial_update_with_sort_key (ensure_mem_table env s.impl).2 chunk =
        Status.NotSupported "table with sort key do not support partial update" ↔
      has_upsert_row chunk) ∧
    (¬ has_upsert_row chunk →
      check_partial_update_with_sort_key (ensure_mem_table env s.impl).2 chunk = Status.OK ∧
      write env s chunk indexes indexes_size =
        write_rows env { s with impl := (ensure_mem_table env s.impl).2 } chunk indexes indexes_size) ∧
    (has_upsert_row chunk →
      (write env s chunk indexes indexes_size).1 =
        Status.NotSupported "table with sort key do not support partial update" ∧
      (write env s chunk indexes indexes_size).2 = { s with impl := (ensure_mem_table env s.impl).2 } ∧
      (write env s chunk indexes indexes_size).2.impl._last_write_ts = s.impl._last_write_ts ∧
      ((∃ mt, s.impl._mem_table = some mt ∧
          (write env s chunk indexes indexes_size).2.impl._mem_table = some mt) ∨
        (s.impl._mem_table = none ∧
          ∃ mt, (write env s chunk indexes indexes_size).2.impl._mem_table = some mt ∧
            mt.rows = []))) := by
  obtain ⟨hyes, hno⟩ :=
    check_partial_update_with_sort_key_spec (ensure_mem_table env s.impl).2 chunk slots hflag
      hslots hop
  have hn1 : ¬ ((!(ensure_mem_table env s.impl).1.ok) = true) := by simp [hmt]
  refine ⟨⟨?_, hyes⟩, ?_, ?_⟩
  · intro h
    by_contra hc
    rw [hno hc] at h
    exact absurd h (by decide)
  · intro hc
    refine ⟨hno hc, ?_⟩
    unfold write
    simp only []
    rw [if_neg hn1, hno hc]
    rfl
  · intro hu
    have hw : write env s chunk indexes indexes_size =
        (Status.NotSupported "table with sort key do not support partial update",
          { s with impl := (ensure_mem_table env s.impl).2 }) := by
      unfold write
      simp only []
      rw [if_neg hn1, hyes hu]
      rfl
    rw [hw]
    obtain ⟨hts, hmem⟩ := ensure_mem_table_spec env s.impl hmt
    exact ⟨rfl, rfl, hts, hmem⟩

/-- Witness of C6: on a tablet sort-keyed on `b`, with slots `(id, a, "__op")`, a
chunk with one `UPSERT` row makes `write()` fail with not-supported. -/
theorem write_partial_update_guard_witness :
    (write (example_env sort_key_schema) op_slots_state upsert_chunk [0] 1).1 =
      Status.NotSupported "table with sort key do not support partial update" :=
  ((write_partial_update_guard (example_env sort_key_schema) op_slots_state upsert_chunk [0] 1
    [⟨"id"⟩, ⟨"a"⟩, ⟨"__op"⟩] (by decide) (by decide) (by decide) (by decide)).2.2
      ⟨0, by decide, by decide⟩).1

/-! ## Partial update with a merge condition -/

/-- C7: if, when `finish(kWriteTxnLog)` comes to build the txn log, the write schema
has strictly fewer columns than the tablet schema and `merge_condition` is not
empty, then no txn log is put and `finish` fails, whatever `rowset_txn_meta` the
tablet writer exposes; the status is not-supported "partial update and condition
update at the same time" when `finish` got that far with every file classified. -/
theorem finish_partial_update_merge_condition (env : Env) (s : State)
    (hp : (finish_prepare env s).2.impl.is_partial_update = true)
    (hm : s.impl._merge_condition ≠ "") :
    (finish env s FinishMode.kWriteTxnLog).2.put_txn_logs = s.put_txn_logs ∧
    (finish env s FinishMode.kWriteTxnLog).1.ok = false ∧
    (finish_reaches_log env s →
      (∀ f ∈ env.files, env.is_segment f = true ∨ env.is_del f = true) →
      (finish env s FinishMode.kWriteTxnLog).1 =
        Status.NotSupported "partial update and condition update at the same time") := by
  have hl := (finish_prepare_logs env s).1
  have hmc := finish_prepare_merge_condition env s
  have hcond : ((finish_prepare env s).2.impl.is_partial_update &&
      !((finish_prepare env s).2.impl._merge_condition == "")) = true := by
    rw [hp, hmc]
    simpa using hm
  rcases finish_cases env s with ⟨hr, hfin⟩ | ⟨hnr, hput, hok⟩
  · rw [hfin]
    obtain ⟨_, hcase⟩ := finish_write_txn_log_cases env (finish_prepare env s).2
    rw [hl] at hcase
    rcases hcase with ⟨hsame, hnok, hwhy⟩ | ⟨op1, _, hfalse, _, _⟩
    · refine ⟨hsame, hnok, fun _ hall => ?_⟩
      rcases hwhy with ⟨e, hc, _⟩ | ⟨op1, _, _, hst⟩
      · obtain ⟨_, f, hf, hs, hd⟩ := classify_files_error _ _ _ _ _ hc
        rcases hall f hf with h | h
        · rw [hs] at h; exact absurd h (by simp)
        · rw [hd] at h; exact absurd h (by simp)
      · exact hst
    · rw [hcond] at hfalse
      exact absurd hfalse (by simp)
  · exact ⟨hput, hok, fun h => absurd h hnr⟩

/-- Witness of C7: a partial update `(id, b)` with merge condition `"b"` makes
`finish` fail with not-supported. -/
theorem finish_partial_update_merge_condition_witness :
    (finish (example_env example_schema) merge_condition_state FinishMode.kWriteTxnLog).1 =
      Status.NotSupported "partial update and condition update at the same time" :=
  (finish_partial_update_merge_condition (example_env example_schema) merge_condition_state
    (by decide) (by decide)).2.2 ⟨by decide, by decide, _, rfl⟩ (by decide)

/-! ## The schemas of a writer whose sink exists -/

theorem schema_built_of_part {w w' : DeltaWriterImpl} (h : schema_part w' = schema_part w)
    (hb : schema_built w) : schema_built w' := by
  simp only [schema_part, Prod.mk.injEq] at h
  obtain ⟨h1, h2, h3, h4⟩ := h
  intro hs
  rw [h1] at hs
  obtain ⟨ts, ht, hw⟩ := hb hs
  exact ⟨ts, by rw [h2, ht], by rw [h3, h4]; exact hw⟩

theorem init_tablet_schema_loaded (env : Env) (w : DeltaWriterImpl)
    (hok : (init_tablet_schema env w).1.ok = true) :
    (∃ ts, (init_tablet_schema env w).2._tablet_schema = some ts) ∧
      (init_tablet_schema env w).2._mem_table_sink = w._mem_table_sink ∧
      (init_tablet_schema env w).2._write_column_ids = w._write_column_ids := by
  unfold init_tablet_schema at hok ⊢
  cases hts : w._tablet_schema with
  | some ts => simp [hts]
  | none =>
    simp only [hts, Option.isSome_none, Bool.false_eq_true, if_false] at hok ⊢
    cases hg : env.get_tablet 291 with
    | error e =>
      simp only [hg] at hok
      exact absurd hok (by simp [e.not_ok])
    | ok tablet =>
      simp only [hg] at hok ⊢
      cases hi : tablet.get_schema_by_index_id w._index_id with
      | ok schema => exact ⟨⟨schema, rfl⟩, rfl, rfl⟩
      | error e =>
        simp only [hi] at hok ⊢
        by_cases hnf : e.status.is_not_found = true
        · rw [if_pos hnf] at hok ⊢
          cases hsch : tablet.get_schema with
          | ok schema => exact ⟨⟨schema, rfl⟩, rfl, rfl⟩
          | error e2 =>
            simp only [hsch] at hok
            exact absurd hok (by simp [e2.not_ok])
        · rw [if_neg hnf] at hok
          exact absurd hok (by simp [e.not_ok])

theorem init_write_schema_sink (w : DeltaWriterImpl) :
    w.init_write_schema.2._mem_table_sink = w._mem_table_sink := by
  unfold DeltaWriterImpl.init_write_schema
  repeat' (first | rfl | split | (dsimp only))

theorem init_write_schema_built (w : DeltaWriterImpl) (ts : TabletSchema)
    (hts : w._tablet_schema = some ts) (hok : w.init_write_schema.1.ok = true) :
    w.init_write_schema.2._tablet_schema = some ts ∧
      (w.init_write_schema.2._write_schema = some ts ∨
        w.init_write_schema.2._write_schema =
          some (TabletSchema.create ts w.init_write_schema.2._write_column_ids)) := by
  by_cases hp : spec_partial_update ts w._slots
  · cases hs : w._slots with
    | none => simp [hs, spec_partial_update] at hp
    | some slots =>
      rw [hs] at hp
      rcases resolve_slots_cases ts (slots.take (write_columns slots)) w._write_column_ids
        with ⟨ids, hres⟩ | ⟨err, ids, hres⟩
      · obtain ⟨h1, h2, h3⟩ := init_write_schema_resolved w ts slots ids hts hs hp hres
        exact ⟨h3, Or.inr (by rw [h1, h2])⟩
      · have hinit := init_write_schema_unresolved w ts slots ids err hts hs hp hres
        have hcode := (resolve_slots_some ts _ _ _ _ hres).1
        rw [hinit] at hok
        simp [Status.ok, hcode] at hok
  · rw [init_write_schema_full w ts hts hp]
    exact ⟨hts, Or.inl rfl⟩

theorem init_tablet_schema_sink (env : Env) (w : DeltaWriterImpl) :
    (init_tablet_schema env w).2._mem_table_sink = w._mem_table_sink := by
  unfold init_tablet_schema
  repeat' (first | rfl | split)

theorem build_schema_and_writer_built (env : Env) (w : DeltaWriterImpl) (hb : schema_built w) :
    schema_built (build_schema_and_writer env w).2 ∧
      ((build_schema_and_writer env w).1.ok = true →
        (build_schema_and_writer env w).2._mem_table_sink = true) := by
  unfold build_schema_and_writer
  by_cases hsink : w._mem_table_sink = true
  · simp only [hsink, Bool.not_true, Bool.false_eq_true, if_false]
    exact ⟨hb, fun _ => trivial⟩
  · have hsf : w._mem_table_sink = false := by simpa using hsink
    simp only [hsf, Bool.not_false, if_true]
    cases hg : env.get_tablet 219 with
    | error e =>
      simp only []
      refine ⟨fun h => absurd h hsink, fun h => ?_⟩
      exact absurd h (by simp [e.not_ok])
    | ok tablet =>
      simp only []
      have hs1 := init_tablet_schema_sink env w
      have hs2 := init_write_schema_sink (init_tablet_schema env w).2
      by_cases h1 : (init_tablet_schema env w).1.ok = true
      · have hn1 : ¬ ((!(init_tablet_schema env w).1.ok) = true) := by simp [h1]
        rw [if_neg hn1]
        obtain ⟨⟨ts, hts⟩, _, _⟩ := init_tablet_schema_loaded env w h1
        by_cases h2 : (init_tablet_schema env w).2.init_write_schema.1.ok = true
        · have hn2 : ¬ ((!(init_tablet_schema env w).2.init_write_schema.1.ok) = true) := by
            simp [h2]
          rw [if_neg hn2]
          obtain ⟨hts2, hws⟩ := init_write_schema_built _ ts hts h2
          by_cases h3 : env.tablet_writer_open.ok = true
          · have hn3 : ¬ ((!env.tablet_writer_open.ok) = true) := by simp [h3]
            rw [if_neg hn3]
            exact ⟨fun _ => ⟨ts, hts2, hws⟩, fun _ => rfl⟩
          · have hp3 : (!env.tablet_writer_open.ok) = true := by simpa using h3
            rw [if_pos hp3]
            refine ⟨fun h => ?_, fun h => absurd h h3⟩
            have : (init_tablet_schema env w).2.init_write_schema.2._mem_table_sink = true := h
            rw [hs2, hs1, hsf] at this
            exact absurd this (by simp)
        · have hp2 : (!(init_tablet_schema env w).2.init_write_schema.1.ok) = true := by
            simpa using h2
          rw [if_pos hp2]
          refine ⟨fun h => ?_, fun h => absurd h h2⟩
          rw [hs2, hs1, hsf] at h
          exact absurd h (by simp)
      · have hp1 : (!(init_tablet_schema env w).1.ok) = true := by simpa using h1
        rw [if_pos hp1]
        refine ⟨fun h => ?_, fun h => absurd h h1⟩
        rw [hs1, hsf] at h
        exact absurd h (by simp)

theorem reset_memtable_built (env : Env) (w : DeltaWriterImpl) (hb : schema_built w) :
    schema_built (reset_memtable env w).2 := by
  unfold reset_memtable
  have h := (build_schema_and_writer_built env w hb).1
  simp only []
  split_ifs
  · exact h
  · exact schema_built_of_part rfl h
  · exact schema_built_of_part rfl h

theorem ensure_mem_table_built (env : Env) (w : DeltaWriterImpl) (hb : schema_built w) :
    schema_built (ensure_mem_table env w).2 := by
  unfold ensure_mem_table
  split_ifs
  · exact reset_memtable_built env w hb
  · exact hb

theorem write_rows_built (env : Env) (s : State) (chunk : Chunk) (indexes : List Nat)
    (indexes_size : Nat) (hb : schema_built s.impl) :
    schema_built (write_rows env s chunk indexes indexes_size).2.impl := by
  unfold write_rows
  simp only []
  have hins : schema_built
      (mem_table_insert { s.impl with _last_write_ts := env.now } chunk indexes indexes_size) :=
    schema_built_of_part rfl hb
  split_ifs
  · exact schema_built_of_part (flush_same env _).1 hins
  · exact schema_built_of_part (flush_same env _).1 hins
  · exact schema_built_of_part (flush_async_same env _).1 hins
  · exact hins

theorem write_built (env : Env) (s : State) (chunk : Chunk) (indexes : List Nat)
    (indexes_size : Nat) (hb : schema_built s.impl) :
    schema_built (write env s chunk indexes indexes_size).2.impl := by
  unfold write
  simp only []
  have h := ensure_mem_table_built env s.impl hb
  split_ifs
  · exact h
  · exact h
  · exact write_rows_built env _ chunk indexes indexes_size h

theorem finish_prepare_built (env : Env) (s : State) (hb : schema_built s.impl) :
    schema_built (finish_prepare env s).2.impl ∧
      ((finish_prepare env s).1.ok = true → (finish_prepare env s).2.impl._mem_table_sink = true) := by
  unfold finish_prepare
  simp only []
  obtain ⟨h1, h2⟩ := build_schema_and_writer_built env s.impl hb
  have hf := (flush_same env { s with impl := (build_schema_and_writer env s.impl).2 }).1
  by_cases hb1 : (build_schema_and_writer env s.impl).1.ok = true
  · have hn1 : ¬ ((!(build_schema_and_writer env s.impl).1.ok) = true) := by simp [hb1]
    rw [if_neg hn1]
    have hsink := h2 hb1
    have hsink' : (flush env { s with impl := (build_schema_and_writer env s.impl).2 }).2.impl._mem_table_sink
        = true := by
      simp only [schema_part, Prod.mk.injEq] at hf
      rw [hf.1]
      exact hsink
    split_ifs
    · exact ⟨schema_built_of_part hf h1, fun _ => hsink'⟩
    · exact ⟨schema_built_of_part hf h1, fun _ => hsink'⟩
  · have hp1 : (!(build_schema_and_writer env s.impl).1.ok) = true := by simpa using hb1
    rw [if_pos hp1]
    exact ⟨h1, fun h => absurd h hb1⟩

theorem finish_write_txn_log_impl (env : Env) (s : State) :
    (finish_write_txn_log env s).2.impl = s.impl :=
  (finish_write_txn_log_cases env s).1

theorem finish_built (env : Env) (s : State) (mode : FinishMode) (hb : schema_built s.impl) :
    schema_built (finish env s mode).2.impl := by
  unfold finish
  simp only []
  have h := (finish_prepare_built env s hb).1
  split_ifs
  · exact h
  · exact h
  · exact h
  · split
    · exact h
    · rw [finish_write_txn_log_impl]
      exact h

theorem step_built (env : Env) (op : Op) (s : State) (hb : schema_built s.impl) :
    schema_built (step env op s).impl := by
  cases op with
  | «open» =>
    simp only [step, «open»]
    split_ifs <;> exact schema_built_of_part rfl hb
  | write chunk indexes indexes_size => exact write_built env s chunk indexes indexes_size hb
  | flush => exact schema_built_of_part (flush_same env s).1 hb
  | flush_async => exact schema_built_of_part (flush_async_same env s).1 hb
  | finish mode => exact finish_built env s mode hb
  | close =>
    simp only [step, close]
    split_ifs <;> exact fun h => absurd h (by simp)
  | check_immutable =>
    simp only [step, check_immutable]
    repeat' (first | exact hb | exact schema_built_of_part rfl hb | split)
  | callback d => exact schema_built_of_part (flush_callback_same d s).1 hb

/-- In every reachable state the schemas of a writer whose sink exists are built. -/
theorem reachable_schema_built {s : State} (h : Reachable s) : schema_built s.impl := by
  induction h with
  | init wbs b mgr =>
    exact fun h =>
      absurd h (by simp [State.init, DeltaWriterBuilder.construct, DeltaWriterImpl.new])
  | step env op _ ih => exact step_built env op _ ih

/-! ## The txn meta of a partial update -/

/-- When `finish(kWriteTxnLog)` puts a log, it ran the txn-log part on the prepared
state, and the log is the one built from the classified files. -/
theorem finish_put_log (env : Env) (s : State) (log : TxnLog)
    (hlog : (finish env s FinishMode.kWriteTxnLog).2.put_txn_logs = s.put_txn_logs ++ [log]) :
    finish_reaches_log env s ∧
      (finish env s FinishMode.kWriteTxnLog).2.impl = (finish_prepare env s).2.impl ∧
      ∃ op1, classify_files env.is_segment env.is_del env.files {} = .ok op1 ∧
        log = txn_log_of env (finish_prepare env s).2.impl op1 := by
  have hl := (finish_prepare_logs env s).1
  rcases finish_cases env s with ⟨hr, hfin⟩ | ⟨_, hput, _⟩
  · rw [hfin] at hlog ⊢
    obtain ⟨himpl, hcase⟩ := finish_write_txn_log_cases env (finish_prepare env s).2
    rw [hl] at hcase
    rcases hcase with ⟨hsame, _, _⟩ | ⟨op1, hc, _, hput, _⟩
    · rw [hsame] at hlog
      simp at hlog
    · rw [hput] at hlog
      refine ⟨hr, himpl, op1, hc, ?_⟩
      have : txn_log_of env (finish_prepare env s).2.impl op1 = log := by simpa using hlog
      exact this.symm
  · rw [hput] at hlog
    simp at hlog

/-- C8: on a partial update whose tablet writer exposes a `rowset_txn_meta`, the
txn log that `finish(kWriteTxnLog)` puts from any reachable state carries a txn
meta whose `partial_update_column_ids` are those of the exposed meta followed by
exactly the entries of `write_column_ids` in order, whose
`partial_update_column_unique_ids` are followed by the unique id of every column
of the write schema in order (key columns included), both appended lists having
`write_schema.num_columns()` entries, and one rewrite-segment filename per segment. -/
theorem finish_partial_update_txn_meta (env : Env) (s : State) (m : RowsetTxnMetaPB)
    (log : TxnLog) (hr : Reachable s) (hmeta : env.rowset_txn_meta = some m)
    (hlog : (finish env s FinishMode.kWriteTxnLog).2.put_txn_logs = s.put_txn_logs ++ [log])
    (hp : (finish env s FinishMode.kWriteTxnLog).2.impl.is_partial_update = true) :
    ∃ tm ws, log.op_write.txn_meta = some tm ∧
      (finish env s FinishMode.kWriteTxnLog).2.impl._write_schema = some ws ∧
      tm.partial_update_column_ids = m.partial_update_column_ids ++
        (finish env s FinishMode.kWriteTxnLog).2.impl._write_column_ids ∧
      tm.partial_update_column_unique_ids = m.partial_update_column_unique_ids ++
        ws.columns.map (fun c => c.unique_id) ∧
      (finish env s FinishMode.kWriteTxnLog).2.impl._write_column_ids.length = ws.num_columns ∧
      (ws.columns.map (fun c => c.unique_id)).length = ws.num_columns ∧
      log.op_write.rewrite_segments.length = log.op_write.rowset.segments.length := by
  obtain ⟨hreach, himpl, op1, hc, hlogeq⟩ := finish_put_log env s log hlog
  rw [himpl] at hp ⊢
  obtain ⟨hbuilt, hsink⟩ := finish_prepare_built env s (reachable_schema_built hr)
  obtain ⟨ts, hts, hws⟩ := hbuilt (hsink hreach.1)
  have hcreate : (finish_prepare env s).2.impl._write_schema =
      some (TabletSchema.create ts (finish_prepare env s).2.impl._write_column_ids) := by
    rcases hws with h | h
    · simp [DeltaWriterImpl.is_partial_update, hts, h] at hp
    · exact h
  have hlen : (finish_prepare env s).2.impl._write_column_ids.length =
      (TabletSchema.create ts (finish_prepare env s).2.impl._write_column_ids).columns.length := by
    simp [TabletSchema.create]
  obtain ⟨_, _, _, hrw, _⟩ := classify_files_ok _ _ _ _ _ hc
  have hop : log.op_write = fill_txn_meta env (finish_prepare env s).2.impl
      (TabletSchema.create ts (finish_prepare env s).2.impl._write_column_ids) true m
      (set_rowset_stats env op1) := by
    rw [hlogeq]
    simp only [txn_log_of, handle_txn_meta, hmeta, hcreate, hp, Option.getD_some]
  obtain ⟨tm, htm, hids, huniq⟩ := fill_txn_meta_partial_columns env (finish_prepare env s).2.impl
    (TabletSchema.create ts (finish_prepare env s).2.impl._write_column_ids) m
    (set_rowset_stats env op1) hlen
  refine ⟨tm, _, by rw [hop, htm], hcreate, hids, huniq, hlen, by simp [TabletSchema.num_columns], ?_⟩
  rw [hop, (fill_txn_meta_rowset _ _ _ _ _ _).1]
  exact fill_txn_meta_rewrite _ _ _ _ _ _ (by simpa [set_rowset_stats] using hrw) (Or.inl rfl)

/-- Witness of C8: columns `(id, a, b, c)` with slots `(id, b)` and one segment give
the partial-update column ids `[0, 2]` and one rewrite-segment filename. -/
theorem finish_partial_update_txn_meta_witness :
    (finish partial_update_env partial_update_state FinishMode.kWriteTxnLog).2.put_txn_logs
        = partial_update_state.put_txn_logs ++ [partial_update_log] ∧
      partial_update_log.op_write.rewrite_segments.length
        = partial_update_log.op_write.rowset.segments.length :=
  have h : (finish partial_update_env partial_update_state FinishMode.kWriteTxnLog).2.put_txn_logs
      = partial_update_state.put_txn_logs ++ [partial_update_log] := by decide
  match finish_partial_update_txn_meta partial_update_env partial_update_state {}
      partial_update_log (reachable_run _ _ (Reachable.init _ _ _)) rfl h (by decide) with
  | ⟨_, _, _, _, _, _, _, _, hrw⟩ => ⟨h, hrw⟩

/-! ## The auto-increment column in the txn meta -/

theorem first_auto_increment_spec (ws : TabletSchema) (i : Nat)
    (h : ws.columns.findIdx? (fun c => c.is_auto_increment) = some i) :
    i < ws.num_columns ∧ (ws.column i).is_auto_increment = true ∧
      ∀ j, j < i → (ws.column j).is_auto_increment = false := by
  obtain ⟨hlt, hp, hmin⟩ := List.findIdx?_eq_some_iff_getElem.mp h
  refine ⟨hlt, ?_, ?_⟩
  · simp only [TabletSchema.column]
    rw [List.getD_eq_getElem _ _ hlt]
    exact hp
  · intro j hj
    have hjl : j < ws.columns.length := Nat.lt_trans hj hlt
    simp only [TabletSchema.column]
    rw [List.getD_eq_getElem _ _ hjl]
    simpa using hmin j hj

/-- C9: when `miss_auto_increment_column` is set and the tablet writer exposes a
`rowset_txn_meta`, the txn log that `finish(kWriteTxnLog)` puts from any reachable
state records as `auto_increment_partial_update_column_id` the smallest index,
within the write schema, of an auto-increment column; when the write schema has no
such column the field is left as it was (the value of the exposed meta when that was
copied for a partial update, unset otherwise); and the log has exactly one
rewrite-segment filename per segment, on a partial update or not. -/
theorem finish_auto_increment_txn_meta (env : Env) (s : State) (m : RowsetTxnMetaPB)
    (log : TxnLog) (hr : Reachable s) (hmiss : s.impl._miss_auto_increment_column = true)
    (hmeta : env.rowset_txn_meta = some m)
    (hlog : (finish env s FinishMode.kWriteTxnLog).2.put_txn_logs = s.put_txn_logs ++ [log]) :
    ∃ ws, (finish env s FinishMode.kWriteTxnLog).2.impl._write_schema = some ws ∧
      ((∃ c ∈ ws.columns, c.is_auto_increment = true) →
        ∃ i : Nat, i < ws.num_columns ∧ (ws.column i).is_auto_increment = true ∧
          (∀ j, j < i → (ws.column j).is_auto_increment = false) ∧
          log.op_write.auto_increment_id = some (i : Int)) ∧
      ((∀ c ∈ ws.columns, c.is_auto_increment = false) →
        log.op_write.auto_increment_id =
          if (finish env s FinishMode.kWriteTxnLog).2.impl.is_partial_update then
            m.auto_increment_partial_update_column_id
          else none) ∧
      log.op_write.rewrite_segments.length = log.op_write.rowset.segments.length := by
  obtain ⟨hreach, himpl, op1, hc, hlogeq⟩ := finish_put_log env s log hlog
  rw [himpl]
  obtain ⟨hbuilt, hsink⟩ := finish_prepare_built env s (reachable_schema_built hr)
  obtain ⟨ts, hts, hws⟩ := hbuilt (hsink hreach.1)
  have hmiss' : (finish_prepare env s).2.impl._miss_auto_increment_column = true := by
    rw [finish_prepare_miss_auto_increment]
    exact hmiss
  obtain ⟨ws, hwseq⟩ : ∃ ws, (finish_prepare env s).2.impl._write_schema = some ws := by
    rcases hws with h | h
    · exact ⟨_, h⟩
    · exact ⟨_, h⟩
  obtain ⟨_, _, _, hrw, htm⟩ := classify_files_ok _ _ _ _ _ hc
  have hop : log.op_write = fill_txn_meta env (finish_prepare env s).2.impl ws
      (finish_prepare env s).2.impl.is_partial_update m (set_rowset_stats env op1) := by
    rw [hlogeq]
    simp only [txn_log_of, handle_txn_meta, hmeta, hwseq, Option.getD_some]
  have hauto := fill_txn_meta_auto_increment env (finish_prepare env s).2.impl ws
    (finish_prepare env s).2.impl.is_partial_update m (set_rowset_stats env op1)
    (by simpa [set_rowset_stats] using htm) hmiss'
  rw [← hop] at hauto
  refine ⟨ws, hwseq, ?_, ?_, ?_⟩
  · rintro ⟨c, hc1, hc2⟩
    have hsome := List.findIdx?_eq_some_of_exists (p := fun c => c.is_auto_increment) ⟨c, hc1, hc2⟩
    rw [hsome] at hauto
    obtain ⟨h1, h2, h3⟩ := first_auto_increment_spec ws _ hsome
    exact ⟨_, h1, h2, h3, hauto⟩
  · intro hnone
    have hn : ws.columns.findIdx? (fun c => c.is_auto_increment) = none :=
      List.findIdx?_eq_none_iff.mpr hnone
    rw [hn] at hauto
    exact hauto
  · rw [hop, (fill_txn_meta_rowset _ _ _ _ _ _).1]
    exact fill_txn_meta_rewrite _ _ _ _ _ _ (by simpa [set_rowset_stats] using hrw)
      (Or.inr hmiss')

/-- Witness of C9: with slots `(id, ai)` over `(id, v, ai)` the recorded id is `1`,
the position within the write schema, and one rewrite-segment filename is made. -/
theorem finish_auto_increment_txn_meta_witness :
    (finish auto_increment_env auto_increment_state FinishMode.kWriteTxnLog).2.put_txn_logs
        = auto_increment_state.put_txn_logs ++ [auto_increment_log] ∧
      auto_increment_log.op_write.auto_increment_id = some 1 ∧
      auto_increment_log.op_write.rewrite_segments.length
        = auto_increment_log.op_write.rowset.segments.length :=
  have h : (finish auto_increment_env auto_increment_state FinishMode.kWriteTxnLog).2.put_txn_logs
      = auto_increment_state.put_txn_logs ++ [auto_increment_log] := by decide
  match finish_auto_increment_txn_meta auto_increment_env auto_increment_state {}
      auto_increment_log (reachable_run _ _ (Reachable.init _ _ _)) (by decide) rfl h with
  | ⟨_, _, _, _, hrw⟩ => ⟨h, by decide, hrw⟩

/-! ## The in-writing accounting after `close()` -/

theorem remove_in_writing_data_size_spec (m : TabletManager) (tablet_id txn_id : Int) :
    (m.remove_in_writing_data_size tablet_id txn_id).in_writing_size_of tablet_id txn_id = 0 ∧
      ∀ e ∈ (m.remove_in_writing_data_size tablet_id txn_id).in_writing,
        e.1 ≠ (tablet_id, txn_id) := by
  have hno : ∀ e ∈ (m.remove_in_writing_data_size tablet_id txn_id).in_writing,
      e.1 ≠ (tablet_id, txn_id) := by
    intro e he
    simp only [TabletManager.remove_in_writing_data_size, List.mem_filter] at he
    simpa using he.2
  refine ⟨?_, hno⟩
  unfold TabletManager.in_writing_size_of
  have hnil : (m.remove_in_writing_data_size tablet_id txn_id).in_writing.filter
      (fun e => e.1 == (tablet_id, txn_id)) = [] := by
    rw [List.filter_eq_nil_iff]
    intro e he
    simpa using hno e he
  rw [hnil]
  rfl

theorem close_fixed (env : Env) (s : State) :
    (close env s).impl._tablet_id = s.impl._tablet_id ∧
      (close env s).impl._txn_id = s.impl._txn_id ∧
      (close env s).impl._immutable_tablet_size = s.impl._immutable_tablet_size := by
  have hw := (flush_token_wait_same env s).2.1
  simp only [fixed_part, Prod.mk.injEq] at hw
  unfold close
  simp only []
  split_ifs <;> simp [hw]

/-- C10: if `immutable_tablet_size > 0`, then after `close()` the tablet manager holds
no in-writing entry for the writer's `(tablet_id, txn_id)` and the in-writing size
recorded for it is zero, from every state of the writer and the tablet manager
(whatever calls and flush callbacks came before, failed or not) and whatever the
flush token's `wait()` runs and returns during `close()`. -/
theorem close_removes_in_writing_size (env : Env) (s : State)
    (h : s.impl._immutable_tablet_size > 0) :
    (close env s).mgr.in_writing_size_of s.impl._tablet_id s.impl._txn_id = 0 ∧
      ∀ e ∈ (close env s).mgr.in_writing, e.1 ≠ (s.impl._tablet_id, s.impl._txn_id) := by
  have hw := (flush_token_wait_same env s).2.1
  simp only [fixed_part, Prod.mk.injEq] at hw
  obtain ⟨ht, hx, _, _, hi, _⟩ := hw
  unfold close
  simp only []
  by_cases htok : s.impl._flush_token.isSome = true
  · have hpos : (flush_token_wait env s).2.impl._immutable_tablet_size > 0 := by rw [hi]; exact h
    simp only [htok, if_true, hpos, ht, hx]
    exact remove_in_writing_data_size_spec _ _ _
  · simp only [htok, Bool.false_eq_true, if_false, h, if_true]
    exact remove_in_writing_data_size_spec _ _ _

/-- Witness of C10: 600 in-writing bytes are recorded before `close()`, none after,
although a further segment completes and `wait()` fails during `close()`. -/
theorem close_removes_in_writing_size_witness :
    immutable_state.mgr.in_writing_size_of immutable_state.impl._tablet_id
        immutable_state.impl._txn_id = 600 ∧
      (close failing_wait_env immutable_state).mgr.in_writing_size_of
        immutable_state.impl._tablet_id immutable_state.impl._txn_id = 0 :=
  ⟨by decide, (close_removes_in_writing_size failing_wait_env immutable_state (by decide)).1⟩

/-! ## `close()` twice -/

theorem remove_in_writing_data_size_idem (m : TabletManager) (tablet_id txn_id : Int) :
    (m.remove_in_writing_data_size tablet_id txn_id).remove_in_writing_data_size tablet_id txn_id
      = m.remove_in_writing_data_size tablet_id txn_id := by
  simp [TabletManager.remove_in_writing_data_size, List.filter_filter]

/-- After `close()` the writer owns no collaborator and its merge condition is empty. -/
theorem close_released (env : Env) (s : State) :
    (close env s).impl._tablet_writer = none ∧ (close env s).impl._mem_table = none ∧
      (close env s).impl._mem_table_sink = false ∧ (close env s).impl._flush_token = none ∧
      (close env s).impl._tablet_schema = none ∧ (close env s).impl._write_schema = none ∧
      (close env s).impl._merge_condition = "" := by
  unfold close
  simp only []
  split_ifs <;> exact ⟨rfl, rfl, rfl, rfl, rfl, rfl, rfl⟩

/-- C11: `close()` is a total function of the writer state, a second `close()` (under
any environment) leaves the writer state and the tablet manager's accounting exactly
as the first `close()` left them, and after `close()` the observers `files()`,
`data_size()`, `num_rows()` and `queueing_memtable_num()` return the empty list, 0,
0 and 0 whatever the tablet writer would have reported. -/
theorem close_idempotent (env1 env2 : Env) (s : State) (reported_files : List String)
    (reported_size reported_rows : Int) :
    close env2 (close env1 s) = close env1 s ∧
      files reported_files (close env1 s).impl = [] ∧
      data_size reported_size (close env1 s).impl = 0 ∧
      num_rows reported_rows (close env1 s).impl = 0 ∧
      queueing_memtable_num (close env1 s).impl = 0 := by
  obtain ⟨htw, hmt, hsink, htok, hts, hws, hmc⟩ := close_released env1 s
  refine ⟨?_, ?_, ?_, ?_, ?_⟩
  · have hfix := close_fixed env1 s
    have hstep : close env2 (close env1 s) =
        (if (close env1 s).impl._immutable_tablet_size > 0 then
          { close env1 s with
            mgr := (close env1 s).mgr.remove_in_writing_data_size (close env1 s).impl._tablet_id
              (close env1 s).impl._txn_id }
        else close env1 s) := by
      generalize close env1 s = c at htw hmt hsink htok hts hws hmc
      unfold close
      simp only [htok, Option.isSome_none, Bool.false_eq_true, if_false]
      obtain ⟨w, m, l1, l2, l3, l4⟩ := c
      cases w
      simp only at htw hmt hsink htok hts hws hmc
      subst htw hmt hsink htok hts hws hmc
      rfl
    rw [hstep]
    by_cases hi : (close env1 s).impl._immutable_tablet_size > 0
    · rw [if_pos hi]
      have hmgr : (close env1 s).mgr.remove_in_writing_data_size (close env1 s).impl._tablet_id
          (close env1 s).impl._txn_id = (close env1 s).mgr := by
        rw [hfix.1, hfix.2.1]
        rw [hfix.2.2] at hi
        have hflush := (flush_token_wait_same env1 s).2.1
        simp only [fixed_part, Prod.mk.injEq] at hflush
        obtain ⟨ht, hx, _, _, hsz, _⟩ := hflush
        unfold close
        simp only []
        by_cases htk : s.impl._flush_token.isSome = true
        · have hpos : (flush_token_wait env1 s).2.impl._immutable_tablet_size > 0 := by
            rw [hsz]; exact hi
          simp only [htk, if_true, hpos, ht, hx]
          exact remove_in_writing_data_size_idem _ _ _
        · simp only [htk, Bool.false_eq_true, if_false, hi, if_true]
          exact remove_in_writing_data_size_idem _ _ _
      rw [hmgr]
    · rw [if_neg hi]
  · simp [files, htw]
  · simp [data_size, htw]
  · simp [num_rows, htw]
  · simp [queueing_memtable_num, htok]

/-- Witness of C11 on a writer with in-writing bytes and a failing `wait()`. -/
theorem close_idempotent_witness :
    close (example_env example_schema) (close failing_wait_env immutable_state)
      = close failing_wait_env immutable_state :=
  (close_idempotent failing_wait_env (example_env example_schema) immutable_state [] 0 0).1

/-! ## The sort-key flag of a partial update -/

/-- C12 (the code breaks it): over the schema `(id, a, b, c)` with sort key `{0}`, the
slots `(b, id)` reconcile successfully to `write_column_ids = [2, 0]`, which contain
every sort-key index, yet `partial_schema_with_sort_key` is set; the same columns
listed as `(id, b)` leave it clear.  The writer with slots `(b, id, "__op")` is
reachable and its `write()` of an `UPSERT` row fails with not-supported, while the
writer with slots `(id, b, "__op")` accepts the same chunk. -/
theorem partial_schema_with_sort_key_unsorted :
    ((example_writer (some [⟨"b"⟩, ⟨"id"⟩])).init_write_schema.1 = Status.OK ∧
      (example_writer (some [⟨"b"⟩, ⟨"id"⟩])).init_write_schema.2._write_column_ids = [2, 0] ∧
      (∀ k ∈ example_schema.sort_key_idxes,
        (k : Int) ∈ (example_writer (some [⟨"b"⟩, ⟨"id"⟩])).init_write_schema.2._write_column_ids) ∧
      (example_writer (some [⟨"b"⟩, ⟨"id"⟩])).init_write_schema.2._partial_schema_with_sort_key
        = true) ∧
    ((example_writer (some [⟨"id"⟩, ⟨"b"⟩])).init_write_schema.1 = Status.OK ∧
      (example_writer (some [⟨"id"⟩, ⟨"b"⟩])).init_write_schema.2._partial_schema_with_sort_key
        = false) ∧
    (Reachable unsorted_slots_state ∧
      (write (example_env example_schema) unsorted_slots_state upsert_chunk [0] 1).1 =
        Status.NotSupported "table with sort key do not support partial update" ∧
      (write (example_env example_schema) sorted_slots_state upsert_chunk [0] 1).1 = Status.OK) := by
  refine ⟨⟨?_, ?_, ?_, ?_⟩, ⟨?_, ?_⟩, ⟨?_, ?_, ?_⟩⟩
  · decide
  · decide
  · decide
  · decide
  · decide
  · decide
  · exact reachable_run _ _ (Reachable.init _ _ _)
  · decide
  · decide

/-- On two strictly ascending ranges `std::includes` is the inclusion test. -/
theorem std_includes_iff :
    ∀ (a b : List Int), a.Sorted (· < ·) → b.Sorted (· < ·) →
      (std_includes a b = true ↔ ∀ x ∈ b, x ∈ a) := by
  intro a
  induction a with
  | nil =>
    intro b _ _
    cases b with
    | nil => simp [std_includes]
    | cons y bs =>
      simp only [std_includes, Bool.false_eq_true, false_iff]
      intro hall
      exact absurd (hall y (List.mem_cons_self _ _)) (List.not_mem_nil _)
  | cons x as ih =>
    intro b ha hb
    cases b with
    | nil => simp [std_includes]
    | cons y bs =>
      obtain ⟨hxas, has⟩ := List.sorted_cons.mp ha
      obtain ⟨hybs, hbs⟩ := List.sorted_cons.mp hb
      simp only [std_includes]
      by_cases h1 : y < x
      · rw [if_pos h1]
        simp only [Bool.false_eq_true, false_iff]
        intro hall
        rcases List.mem_cons.mp (hall y (List.mem_cons_self _ _)) with h | h
        · omega
        · have := hxas y h
          omega
      · rw [if_neg h1]
        by_cases h2 : x < y
        · have hc : ¬ ((!decide (x < y)) = true) := by simp [h2]
          rw [if_neg hc, ih (y :: bs) has hb]
          constructor
          · intro hall z hz
            exact List.mem_cons_of_mem _ (hall z hz)
          · intro hall z hz
            rcases List.mem_cons.mp (hall z hz) with h | h
            · rcases List.mem_cons.mp hz with h' | h'
              · omega
              · have := hybs z h'
                omega
            · exact h
        · have hc : (!decide (x < y)) = true := by simp [h2]
          have hxy : x = y := by omega
          rw [if_pos hc, ih bs has hbs]
          constructor
          · intro hall z hz
            rcases List.mem_cons.mp hz with h | h
            · rw [h, ← hxy]
              exact List.mem_cons_self _ _
            · exact List.mem_cons_of_mem _ (hall z h)
          · intro hall z hz
            rcases List.mem_cons.mp (hall z (List.mem_cons_of_mem _ hz)) with h | h
            · have := hybs z hz
              omega
            · exact h

/-- When the slots list the columns in ascending schema order and the sort-key
indices are distinct, the first successful reconciliation of a partial update sets
`partial_schema_with_sort_key` exactly when some sort-key index is missing from
`write_column_ids`. -/
theorem partial_schema_with_sort_key_ascending (w : DeltaWriterImpl) (ts : TabletSchema)
    (slots : List SlotDescriptor)
    (hts : w._tablet_schema = some ts) (hflag : w._partial_schema_with_sort_key = false)
    (hslots : w._slots = some slots) (hpart : spec_partial_update ts (some slots))
    (hok : w.init_write_schema.1.ok = true)
    (hasc : w.init_write_schema.2._write_column_ids.Sorted (· < ·))
    (hnodup : ts.sort_key_idxes.Nodup) :
    w.init_write_schema.2._partial_schema_with_sort_key = true ↔
      ∃ k ∈ ts.sort_key_idxes, (k : Int) ∉ w.init_write_schema.2._write_column_ids := by
  rcases resolve_slots_cases ts (slots.take (write_columns slots)) w._write_column_ids
    with ⟨ids, hres⟩ | ⟨err, ids, hres⟩
  · have hinit : w.init_write_schema.2._write_column_ids = ids ∧
        w.init_write_schema.2._partial_schema_with_sort_key =
          (if !(std_includes ids ((sorted_idxes ts.sort_key_idxes).map Int.ofNat)) then true
            else false) := by
      unfold DeltaWriterImpl.init_write_schema
      simp only [spec_partial_update, ← write_columns_eq_effective] at hpart
      have hc : (ts.keys_type == KeysType.PRIMARY_KEYS &&
          decide (write_columns slots < ts.num_columns)) = true := by
        simp [hpart.1, hpart.2]
      simp [hts, hslots, hc, hres, hflag]
    rw [hinit.1] at hasc ⊢
    rw [hinit.2]
    have hsorted : ((sorted_idxes ts.sort_key_idxes).map Int.ofNat).Sorted (· < ·) := by
      have h1 : (sorted_idxes ts.sort_key_idxes).Sorted (· ≤ ·) :=
        List.sorted_insertionSort _ _
      have h2 : (sorted_idxes ts.sort_key_idxes).Nodup :=
        (List.perm_insertionSort _ _).nodup_iff.mpr hnodup
      have h3 : (sorted_idxes ts.sort_key_idxes).Sorted (· < ·) := h1.lt_of_le h2
      exact List.Pairwise.map Int.ofNat (fun a b hab => Int.ofNat_lt.mpr hab) h3
    have hiff := std_includes_iff ids _ hasc hsorted
    constructor
    · intro h
      have hfalse : ¬ std_includes ids ((sorted_idxes ts.sort_key_idxes).map Int.ofNat) = true := by
        intro hinc
        simp [hinc] at h
      rw [hiff] at hfalse
      push_neg at hfalse
      obtain ⟨x, hx, hxn⟩ := hfalse
      obtain ⟨k, hk, rfl⟩ := List.mem_map.mp hx
      exact ⟨k, (List.mem_insertionSort _).mp hk, hxn⟩
    · rintro ⟨k, hk, hkn⟩
      have hfalse : ¬ std_includes ids ((sorted_idxes ts.sort_key_idxes).map Int.ofNat) = true := by
        rw [hiff]
        intro hall
        exact hkn (hall _ (List.mem_map.mpr ⟨k, (List.mem_insertionSort _).mpr hk, rfl⟩))
      simp [hfalse]
  · have hinit := init_write_schema_unresolved w ts slots ids err hts hslots hpart hres
    have hcode := (resolve_slots_some ts _ _ _ _ hres).1
    rw [hinit] at hok
    simp [Status.ok, hcode] at hok

/-! ## The flush policy of `write` -/

theorem init_tablet_schema_flush_token (env : Env) (w : DeltaWriterImpl) :
    (init_tablet_schema env w).2._flush_token = w._flush_token := by
  unfold init_tablet_schema
  repeat' (first | rfl | split)

theorem init_write_schema_flush_token (w : DeltaWriterImpl) :
    w.init_write_schema.2._flush_token = w._flush_token := by
  unfold DeltaWriterImpl.init_write_schema
  repeat' (first | rfl | split | (dsimp only))

theorem build_schema_and_writer_flush_token (env : Env) (w : DeltaWriterImpl) :
    (build_schema_and_writer env w).2._flush_token = w._flush_token := by
  unfold build_schema_and_writer
  have h1 := init_tablet_schema_flush_token env w
  have h2 := init_write_schema_flush_token (init_tablet_schema env w).2
  repeat' (first | rfl | exact h1 | exact h2.trans h1 | split | (dsimp only))

theorem ensure_mem_table_flush_token (env : Env) (w : DeltaWriterImpl) :
    (ensure_mem_table env w).2._flush_token = w._flush_token := by
  unfold ensure_mem_table reset_memtable
  have h := build_schema_and_writer_flush_token env w
  repeat' (first | rfl | exact h | split | (dsimp only))

/-- C13: once the memtable exists and the partial-update guard has passed, `write()`
inserts the rows and then performs exactly one action, chosen in this order: the
synchronous `flush()` when the writer's own tracker reports limit exceeded (full
memtable or not); else `flush()` when a parent tracker exists and reports limit
exceeded; else `flush_async()` when the insertion reported the memtable full; else
nothing, returning OK with the memtable kept.  The status and state `write()`
returns are those of the chosen action.  Before that action nothing has been
submitted: the flush token is the one the writer had and the memtable holds the
inserted rows. -/
theorem write_flush_policy (env : Env) (s : State) (chunk : Chunk) (indexes : List Nat)
    (indexes_size : Nat)
    (hmt : (ensure_mem_table env s.impl).1.ok = true)
    (hguard : (check_partial_update_with_sort_key (ensure_mem_table env s.impl).2 chunk).ok = true) :
    (env.limit_exceeded = true →
      write env s chunk indexes indexes_size
        = flush env (write_inserted env s chunk indexes indexes_size)) ∧
    (env.limit_exceeded = false → env.parent_limit_exceeded = some true →
      write env s chunk indexes indexes_size
        = flush env (write_inserted env s chunk indexes indexes_size)) ∧
    (env.limit_exceeded = false → env.parent_limit_exceeded ≠ some true →
      env.insert_full = true →
      write env s chunk indexes indexes_size
        = flush_async env (write_inserted env s chunk indexes indexes_size)) ∧
    (env.limit_exceeded = false → env.parent_limit_exceeded ≠ some true →
      env.insert_full = false →
      write env s chunk indexes indexes_size
        = (Status.OK, write_inserted env s chunk indexes indexes_size)) ∧
    (write_inserted env s chunk indexes indexes_size).impl._flush_token = s.impl._flush_token ∧
    (write_inserted env s chunk indexes indexes_size).impl._last_write_ts = env.now ∧
    (∃ mt, (write_inserted env s chunk indexes indexes_size).impl._mem_table = some mt ∧
      mt.rows.getLast? = some (chunk, indexes.take indexes_size)) := by
  have hn1 : ¬ ((!(ensure_mem_table env s.impl).1.ok) = true) := by simp [hmt]
  have hn2 : ¬ ((!(check_partial_update_with_sort_key (ensure_mem_table env s.impl).2 chunk).ok)
      = true) := by simp [hguard]
  have hw : write env s chunk indexes indexes_size =
      write_rows env { s with impl := (ensure_mem_table env s.impl).2 } chunk indexes
        indexes_size := by
    unfold write
    simp only []
    rw [if_neg hn1, if_neg hn2]
  rw [hw]
  unfold write_rows write_inserted
  simp only []
  refine ⟨?_, ?_, ?_, ?_, ?_, ?_, ?_⟩
  · intro h1
    rw [if_pos h1]
  · intro h1 h2
    have hc : (env.parent_limit_exceeded == some true) = true := by simp [h2]
    simp only [h1, Bool.false_eq_true, if_false, hc, if_true]
  · intro h1 h2 h3
    have hc : ¬ ((env.parent_limit_exceeded == some true) = true) := by simpa using h2
    simp only [h1, Bool.false_eq_true, if_false, hc, h3, if_true]
  · intro h1 h2 h3
    have hc : ¬ ((env.parent_limit_exceeded == some true) = true) := by simpa using h2
    simp only [h1, Bool.false_eq_true, if_false, hc, h3]
  · exact ensure_mem_table_flush_token env s.impl
  · rfl
  · obtain ⟨_, hmem⟩ := ensure_mem_table_spec env s.impl hmt
    rcases hmem with ⟨mt, _, h⟩ | ⟨_, mt, h, _⟩
    · exact ⟨_, by simp only [mem_table_insert, h, Option.map_some']; rfl, by simp⟩
    · exact ⟨_, by simp only [mem_table_insert, h, Option.map_some']; rfl, by simp⟩

/-- Witness of C13: a full memtable under an exceeded tracker is flushed
synchronously, so `write()` returns the status of the token's `wait()`. -/
theorem write_flush_policy_witness :
    write limit_exceeded_env written_state example_chunk [0, 1] 2
        = flush limit_exceeded_env
            (write_inserted limit_exceeded_env written_state example_chunk [0, 1] 2) ∧
      (write limit_exceeded_env written_state example_chunk [0, 1] 2).1
        = ⟨StatusCode.IOError, "flush failed"⟩ :=
  ⟨(write_flush_policy limit_exceeded_env written_state example_chunk [0, 1] 2
      (by decide) (by decide)).1 rfl, by decide⟩

/-! ## `flush_async()` and `flush()` -/

theorem fill_auto_increment_id_impl (env : Env) (s : State) (chunk : Chunk) :
    (fill_auto_increment_id env s chunk).2.impl = s.impl := by
  unfold fill_auto_increment_id
  repeat' (first | rfl | split)

theorem fill_result_chunk_impl (env : Env) (s : State) :
    (fill_result_chunk env s).2.impl = s.impl := by
  unfold fill_result_chunk
  have h := fun chunk => fill_auto_increment_id_impl env s chunk
  repeat' (first | rfl | exact h _ | split)

/-- C14: `flush_async()` without a memtable returns OK and leaves the whole state as
it was (nothing is submitted); with a memtable whose `finalize()` and, when it runs,
auto-increment fill succeed, it hands exactly that memtable to the flush token
once, returns the status of `submit`, and whatever that status is the writer then
holds no memtable and `last_write_ts == 0`; `flush()` returns the result of
`flush_async()` without waiting when that is an error, and otherwise waits on the
flush token and returns the status of `wait()`. -/
theorem flush_async_spec (env : Env) (s : State) :
    (s.impl._mem_table = none → flush_async env s = (Status.OK, s)) ∧
    (∀ mt tok, s.impl._mem_table = some mt → s.impl._flush_token = some tok →
      env.finalize.ok = true → (fill_result_chunk env (finalized_state s mt)).1.ok = true →
      (flush_async env s).1 = env.submit ∧
      (flush_async env s).2.impl._flush_token = some
        { submitted := tok.submitted ++ [{ mt with finalized := true }]
          queueing_memtable_num := tok.queueing_memtable_num + 1 } ∧
      (flush_async env s).2.impl._mem_table = none ∧
      (flush_async env s).2.impl._last_write_ts = 0) ∧
    ((flush_async env s).1.ok = false → flush env s = flush_async env s) ∧
    ((flush_async env s).1.ok = true →
      flush env s = flush_token_wait env (flush_async env s).2 ∧ (flush env s).1 = env.wait) := by
  refine ⟨?_, ?_, ?_, ?_⟩
  · intro h
    unfold flush_async
    rw [h]
  · intro mt tok hm ht hfin hfill
    have hn1 : ¬ ((!env.finalize.ok) = true) := by simp [hfin]
    have himpl := fill_result_chunk_impl env (finalized_state s mt)
    simp only [finalized_state] at hfill himpl
    have hn2 : ¬ ((!(fill_result_chunk env
        { s with impl := { s.impl with _mem_table := some { mt with finalized := true } } }).1.ok)
        = true) := by simp [hfill]
    unfold flush_async
    rw [hm]
    simp only []
    rw [if_neg hn1, if_neg hn2]
    refine ⟨rfl, ?_, rfl, rfl⟩
    rw [himpl]
    simp only [ht, Option.map_some']
  · intro h
    unfold flush
    simp only []
    have hp : (!(flush_async env s).1.ok) = true := by simp [h]
    rw [if_pos hp]
  · intro h
    have hn : ¬ ((!(flush_async env s).1.ok) = true) := by simp [h]
    have hf : flush env s = flush_token_wait env (flush_async env s).2 := by
      unfold flush
      simp only []
      rw [if_neg hn]
    refine ⟨hf, ?_⟩
    rw [hf]
    unfold flush_token_wait
    split <;> rfl

/-- Witness of C14: when the submission fails, `flush()` returns without waiting,
and the writer still drops its memtable and resets `last_write_ts`. -/
theorem flush_async_spec_witness :
    flush submit_fail_env written_state = flush_async submit_fail_env written_state ∧
      written_state.impl._mem_table.isSome = true ∧
      written_state.impl._last_write_ts = 1000 ∧
      (flush_async submit_fail_env written_state).2.impl._mem_table = none ∧
      (flush_async submit_fail_env written_state).2.impl._last_write_ts = 0 :=
  ⟨(flush_async_spec submit_fail_env written_state).2.2.1 (by decide), by decide, by decide,
    by decide, by decide⟩

/-! ## The filter of the auto-increment filler -/

theorem rss_rowid_init_upper : rss_rowid_init % 2 ^ 64 = rss_rowid_init ∧
    rss_rowid_init / 2 ^ 32 = 0xFFFFFFFF := by
  unfold rss_rowid_init
  constructor <;> norm_num

theorem probed_rowids_length (env : Env) (n : Nat) : (probed_rowids env n).length = n := by
  simp [probed_rowids, probe_rowids]

theorem probed_rowids_getElem (env : Env) (n i : Nat) (hi : i < n) :
    (probed_rowids env n)[i]? =
      some (((env.get_rowids_from_pkindex.2.getD i none).getD rss_rowid_init) % 2 ^ 64) := by
  have hrep : (List.replicate n rss_rowid_init).getD i 0 = rss_rowid_init := by
    rw [List.getD_eq_getElem _ _ (by simpa using hi)]
    simp
  unfold probed_rowids probe_rowids
  rw [List.getElem?_map, List.length_replicate, List.getElem?_range hi]
  simp only [Option.map_some', hrep]

theorem filter_of_rowids_getElem (m : List Nat) (i : Nat) :
    (filter_of_rowids m)[i]? =
      m[i]?.map (fun v => if (v / 2 ^ 32) % 2 ^ 32 = 0xFFFFFFFF then 1 else 0) := by
  unfold filter_of_rowids
  rw [List.getElem?_map]

theorem auto_increment_filter_probed (env : Env) (n : Nat)
    (hmeta : env.latest_cached_tablet_metadata.isSome = true)
    (hok : env.get_rowids_from_pkindex.1.ok = true) :
    auto_increment_filter env n =
      (filter_of_rowids (probed_rowids env n),
        ((filter_of_rowids (probed_rowids env n)).filter (fun b => b == 1)).length % 2 ^ 32) := by
  unfold auto_increment_filter probed_rowids
  simp [hmeta, hok]

theorem auto_increment_filter_all_new (env : Env) (n : Nat)
    (h : ¬ (env.latest_cached_tablet_metadata.isSome = true ∧
      env.get_rowids_from_pkindex.1.ok = true)) :
    auto_increment_filter env n = (List.replicate (n % 2 ^ 32) 1, n % 2 ^ 32) := by
  have hlen := probed_rowids_length env n
  unfold probed_rowids at hlen
  unfold auto_increment_filter
  by_cases hmeta : env.latest_cached_tablet_metadata.isSome = true
  · have hok : env.get_rowids_from_pkindex.1.ok = false := by
      by_contra hc
      exact h ⟨hmeta, by simpa using hc⟩
    simp only [hmeta, if_true, hok, Bool.and_false, Bool.false_eq_true, if_false, hlen]
  · have hm : env.latest_cached_tablet_metadata.isSome = false := by simpa using hmeta
    simp only [hm, Bool.false_eq_true, if_false, Bool.false_and, List.length_replicate]

/-- With cached metadata and a successful probe, for a result chunk of any number
`n` of rows: the filter has one entry per row, `1` exactly where the upper 32 bits
of the row's rss-rowid are `0xFFFFFFFF`; a row the probe left untouched keeps the
initial value and is marked `1`; and the `uint32_t` counter `gen_num` holds the
number of `1`s modulo `2 ^ 32`. -/
theorem auto_increment_filter_probed_spec (env : Env) (n : Nat)
    (hmeta : env.latest_cached_tablet_metadata.isSome = true)
    (hok : env.get_rowids_from_pkindex.1.ok = true) :
    (auto_increment_filter env n).1.length = n ∧
    (∀ i, i < n → ∃ v, (probed_rowids env n)[i]? = some v ∧
      (auto_increment_filter env n).1[i]? = some (if v / 2 ^ 32 = 0xFFFFFFFF then 1 else 0)) ∧
    (auto_increment_filter env n).2 =
      ((auto_increment_filter env n).1.filter (fun b => b == 1)).length % 2 ^ 32 ∧
    (∀ i, i < n → env.get_rowids_from_pkindex.2.getD i none = none →
      (probed_rowids env n)[i]? = some rss_rowid_init ∧
        (auto_increment_filter env n).1[i]? = some 1) := by
  rw [auto_increment_filter_probed env _ hmeta hok]
  have hlen : (filter_of_rowids (probed_rowids env n)).length = n := by
    simp [filter_of_rowids, probed_rowids_length]
  have hentry : ∀ i, i < n → ∃ v, (probed_rowids env n)[i]? = some v ∧
      (filter_of_rowids (probed_rowids env n))[i]? =
        some (if v / 2 ^ 32 = 0xFFFFFFFF then 1 else 0) := by
    intro i hi
    refine ⟨_, probed_rowids_getElem env _ i hi, ?_⟩
    rw [filter_of_rowids_getElem, probed_rowids_getElem env _ i hi]
    simp only [Option.map_some', Option.some.injEq]
    have hlt : ((env.get_rowids_from_pkindex.2.getD i none).getD rss_rowid_init) % 2 ^ 64
        / 2 ^ 32 < 2 ^ 32 := by
      have := Nat.mod_lt ((env.get_rowids_from_pkindex.2.getD i none).getD rss_rowid_init)
        (show 2 ^ 64 > 0 by norm_num)
      omega
    rw [Nat.mod_eq_of_lt hlt]
  refine ⟨hlen, hentry, rfl, ?_⟩
  intro i hi hnone
  have hv := probed_rowids_getElem env _ i hi
  rw [hnone] at hv
  simp only [Option.getD_none, rss_rowid_init_upper.1] at hv
  refine ⟨hv, ?_⟩
  obtain ⟨v, hv1, hv2⟩ := hentry i hi
  rw [hv] at hv1
  simp only [Option.some.injEq] at hv1
  rw [hv2, ← hv1, rss_rowid_init_upper.2]
  simp

/-- For a result chunk of fewer than `2 ^ 32` rows, the range of the `uint32_t`
counter `gen_num`, the filter and `gen_num` are as the spec describes them, and
`gen_num` is the number of ids requested from the allocator. -/
theorem fill_auto_increment_id_filter (env : Env) (s : State) (chunk : Chunk)
    (hn : chunk.num_rows < 2 ^ 32) :
    spec_filter env chunk.num_rows ∧
      ∀ t, env.get_tablet 496 = .ok t →
        (fill_auto_increment_id env s chunk).2.id_requests =
          s.id_requests ++ [(s.impl._table_id, (auto_increment_filter env chunk.num_rows).2)] := by
  constructor
  · constructor
    · intro hmeta hok
      obtain ⟨hlen, hentry, hgen, hnew⟩ :=
        auto_increment_filter_probed_spec env chunk.num_rows hmeta hok
      refine ⟨hlen, hentry, ?_, hnew⟩
      have hle : ((auto_increment_filter env chunk.num_rows).1.filter
          (fun b => b == 1)).length ≤ chunk.num_rows :=
        le_of_le_of_eq (List.length_filter_le _ _) hlen
      rw [hgen]
      exact Nat.mod_eq_of_lt (lt_of_le_of_lt hle hn)
    · intro h
      rw [auto_increment_filter_all_new env _ h, Nat.mod_eq_of_lt hn]
      exact ⟨rfl, rfl⟩
  · intro t ht
    unfold fill_auto_increment_id
    rw [ht]
    simp only []
    split_ifs
    · rfl
    · split
      · rfl
      · rfl
    · split <;> rfl

/-- Five rows of which the probe finds two give the filter `[0, 1, 0, 1, 1]` and
three requested ids. -/
theorem fill_auto_increment_id_filter_example :
    spec_filter probe_env five_row_chunk.num_rows ∧
      auto_increment_filter probe_env five_row_chunk.num_rows = ([0, 1, 0, 1, 1], 3) :=
  ⟨(fill_auto_increment_id_filter probe_env auto_increment_state five_row_chunk (by decide)).1,
    by decide⟩

/-- C15 (the code breaks it): for a result chunk of `2 ^ 32` rows without cached
metadata every row is new, yet the `uint32_t` counter `gen_num` receives the row
count narrowed to `0`, the filter is resized to `0` entries and `0` ids are
requested, where the spec (and the comment "allocate full id for this chunk") has
`n` ones and `gen_num == n`.  The probed branch builds its filter entry by entry:
on the same chunk it has `2 ^ 32` entries. -/
theorem fill_auto_increment_id_wraps :
    huge_chunk.num_rows = 2 ^ 32 ∧
      auto_increment_filter (example_env auto_increment_schema) huge_chunk.num_rows = ([], 0) ∧
      (fill_auto_increment_id (example_env auto_increment_schema) auto_increment_state
        huge_chunk).2.id_requests = auto_increment_state.id_requests ++ [(5, 0)] ∧
      ¬ spec_filter (example_env auto_increment_schema) huge_chunk.num_rows ∧
      (auto_increment_filter probe_env huge_chunk.num_rows).1.length = 2 ^ 32 := by
  have hrows : huge_chunk.num_rows = 2 ^ 32 := by
    simp only [huge_chunk, Chunk.num_rows, List.length_replicate]
  have habsent : ¬ ((example_env auto_increment_schema).latest_cached_tablet_metadata.isSome = true ∧
      (example_env auto_increment_schema).get_rowids_from_pkindex.1.ok = true) := by
    intro h
    exact absurd h.1 (by decide)
  have hfilter : auto_increment_filter (example_env auto_increment_schema) huge_chunk.num_rows
      = ([], 0) := by
    rw [auto_increment_filter_all_new _ _ habsent, hrows, Nat.mod_self]
    rfl
  refine ⟨hrows, hfilter, ?_, ?_, ?_⟩
  · have htable : auto_increment_state.impl._table_id = 5 := by decide
    unfold fill_auto_increment_id
    have hg : (example_env auto_increment_schema).get_tablet 496
        = .ok (example_tablet auto_increment_schema) := rfl
    rw [hg]
    simp only [hfilter, htable]
    split_ifs
    · rfl
    · split <;> rfl
    · split <;> rfl
  · intro hspec
    have h := (hspec.2 habsent).2
    rw [hfilter, hrows] at h
    exact absurd h (by norm_num)
  · rw [(auto_increment_filter_probed_spec probe_env huge_chunk.num_rows rfl rfl).1]
    exact hrows

/-! ## The `is_immutable` flag -/

theorem flag_step_refl (s : State) : flag_step s s := ⟨rfl, id, Or.inl⟩

theorem flag_step_trans {a b c : State} (h1 : flag_step a b) (h2 : flag_step b c) :
    flag_step a c := by
  refine ⟨h2.1.trans h1.1, fun h => h2.2.1 (h1.2.1 h), fun h => ?_⟩
  rcases h2.2.2 h with hb | hb
  · exact h1.2.2 hb
  · exact Or.inr (h1.1 ▸ hb)

theorem flag_step_of_part {s s' : State} (h : immutable_part s'.impl = immutable_part s.impl) :
    flag_step s s' := by
  simp only [immutable_part, Prod.mk.injEq] at h
  exact ⟨h.1, fun hf => h.2 ▸ hf, fun hf => Or.inl (h.2 ▸ hf)⟩

theorem init_tablet_schema_immutable (env : Env) (w : DeltaWriterImpl) :
    immutable_part (init_tablet_schema env w).2 = immutable_part w := by
  unfold init_tablet_schema
  repeat' (first | rfl | split)

theorem init_write_schema_immutable (w : DeltaWriterImpl) :
    immutable_part w.init_write_schema.2 = immutable_part w := by
  unfold DeltaWriterImpl.init_write_schema
  repeat' (first | rfl | split | (dsimp only))

theorem build_schema_and_writer_immutable (env : Env) (w : DeltaWriterImpl) :
    immutable_part (build_schema_and_writer env w).2 = immutable_part w := by
  unfold build_schema_and_writer
  have h1 := init_tablet_schema_immutable env w
  have h2 := init_write_schema_immutable (init_tablet_schema env w).2
  repeat' (first | rfl | exact h1 | exact h2.trans h1 | split | (dsimp only))

theorem ensure_mem_table_immutable (env : Env) (w : DeltaWriterImpl) :
    immutable_part (ensure_mem_table env w).2 = immutable_part w := by
  unfold ensure_mem_table reset_memtable
  have h := build_schema_and_writer_immutable env w
  repeat' (first | rfl | exact h | split | (dsimp only))

/-- The flush callback sets the flag only when its immutable test holds. -/
theorem flush_callback_sets (d : FlushDone) (s : State)
    (h : (flush_callback d s).impl._is_immutable = true) :
    s.impl._is_immutable = true ∨
      ∃ tablet, d.get_tablet = .ok tablet ∧ exceeds_immutable_size tablet (segment_accounted d s) := by
  unfold flush_callback at h
  unfold exceeds_immutable_size segment_accounted
  cases hseg : d.seg <;> cases hg : d.get_tablet <;> simp only [hseg, hg] at h ⊢
  all_goals
    split_ifs at h
    all_goals first
      | exact Or.inl h
      | exact Or.inr ⟨_, rfl, ‹_›, ‹_›⟩

theorem flush_callback_flag_step (d : FlushDone) (s : State) : flag_step s (flush_callback d s) := by
  refine ⟨?_, ?_, ?_⟩
  · have h := (flush_callback_same d s).2.1
    simp only [fixed_part, Prod.mk.injEq] at h
    exact h.2.2.2.2.1
  · intro hf
    unfold flush_callback
    cases d.seg <;> cases d.get_tablet <;> simp only [] <;> split_ifs <;> first
      | exact hf
      | rfl
  · intro hf
    rcases flush_callback_sets d s hf with h | ⟨_, _, h, _⟩
    · exact Or.inl h
    · right
      unfold segment_accounted at h
      cases hseg : d.seg <;> simpa [hseg] using h

theorem foldl_flush_callback_flag_step (ds : List FlushDone) :
    ∀ s : State, flag_step s (ds.foldl (fun acc d => flush_callback d acc) s) := by
  induction ds with
  | nil => intro s; exact flag_step_refl s
  | cons d rest ih =>
    intro s
    exact flag_step_trans (flush_callback_flag_step d s) (ih _)

theorem flush_token_wait_flag_step (env : Env) (s : State) :
    flag_step s (flush_token_wait env s).2 ∧
      (env.wait_callbacks = [] →
        immutable_part (flush_token_wait env s).2.impl = immutable_part s.impl) := by
  unfold flush_token_wait
  cases s.impl._flush_token with
  | none => exact ⟨flag_step_refl s, fun _ => rfl⟩
  | some t =>
    have h := foldl_flush_callback_flag_step env.wait_callbacks s
    refine ⟨⟨h.1, h.2.1, h.2.2⟩, fun hnil => ?_⟩
    simp only [hnil, List.foldl_nil]
    rfl

theorem flag_kept_of_part (env : Env) {s s' : State}
    (h : immutable_part s'.impl = immutable_part s.impl) : flag_kept env s s' :=
  ⟨flag_step_of_part h, fun _ => h⟩

theorem flag_kept_trans {env : Env} {a b c : State} (h1 : flag_kept env a b)
    (h2 : flag_kept env b c) : flag_kept env a c :=
  ⟨flag_step_trans h1.1 h2.1, fun hnil => (h2.2 hnil).trans (h1.2 hnil)⟩

theorem flush_async_immutable (env : Env) (s : State) :
    immutable_part (flush_async env s).2.impl = immutable_part s.impl := by
  unfold flush_async
  cases s.impl._mem_table with
  | none => rfl
  | some mt =>
    simp only []
    split_ifs
    · rfl
    · rw [fill_result_chunk_impl]
      rfl
    · rw [fill_result_chunk_impl]
      rfl

theorem flush_flag_kept (env : Env) (s : State) : flag_kept env s (flush env s).2 := by
  unfold flush
  simp only []
  split_ifs
  · exact flag_kept_of_part env (flush_async_immutable env s)
  · exact flag_kept_trans (flag_kept_of_part env (flush_async_immutable env s))
      (flush_token_wait_flag_step env _)

theorem write_rows_flag_kept (env : Env) (s : State) (chunk : Chunk) (indexes : List Nat)
    (indexes_size : Nat) : flag_kept env s (write_rows env s chunk indexes indexes_size).2 := by
  unfold write_rows
  simp only []
  have h0 : ∀ s3 : State, immutable_part s3.impl = immutable_part s.impl →
      flag_kept env s3 (flush env s3).2 → flag_kept env s (flush env s3).2 :=
    fun s3 h3 hf => flag_kept_trans (flag_kept_of_part env h3) hf
  split_ifs
  · exact h0 _ rfl (flush_flag_kept env _)
  · exact h0 _ rfl (flush_flag_kept env _)
  · exact flag_kept_of_part env ((flush_async_immutable env _).trans rfl)
  · exact flag_kept_of_part env rfl

theorem write_flag_kept (env : Env) (s : State) (chunk : Chunk) (indexes : List Nat)
    (indexes_size : Nat) : flag_kept env s (write env s chunk indexes indexes_size).2 := by
  unfold write
  simp only []
  have h := ensure_mem_table_immutable env s.impl
  split_ifs
  · exact flag_kept_of_part env h
  · exact flag_kept_of_part env h
  · exact flag_kept_trans (flag_kept_of_part env h) (write_rows_flag_kept env _ chunk indexes indexes_size)

theorem finish_prepare_flag_kept (env : Env) (s : State) :
    flag_kept env s (finish_prepare env s).2 := by
  unfold finish_prepare
  simp only []
  have h := build_schema_and_writer_immutable env s.impl
  have hs1 : flag_kept env s { s with impl := (build_schema_and_writer env s.impl).2 } :=
    flag_kept_of_part env h
  split_ifs
  · exact hs1
  · exact flag_kept_trans hs1 (flush_flag_kept env _)
  · exact flag_kept_trans (flag_kept_trans hs1 (flush_flag_kept env _)) (flag_kept_of_part env rfl)

theorem finish_flag_kept (env : Env) (s : State) (mode : FinishMode) :
    flag_kept env s (finish env s mode).2 := by
  unfold finish
  simp only []
  have h := finish_prepare_flag_kept env s
  split_ifs
  · exact h
  · exact h
  · exact h
  · split
    · exact h
    · exact flag_kept_trans h (flag_kept_of_part env (by rw [finish_write_txn_log_impl]))

theorem close_flag_kept (env : Env) (s : State) : flag_kept env s (close env s) := by
  unfold close
  simp only []
  have h := flush_token_wait_flag_step env s
  have hw : flag_kept env s (flush_token_wait env s).2 := h
  split_ifs
  · exact flag_kept_trans hw (flag_kept_of_part env rfl)
  · exact flag_kept_trans hw (flag_kept_of_part env rfl)
  · exact flag_kept_of_part env rfl
  · exact flag_kept_of_part env rfl

/-- A call of `check_immutable()` sets the flag only when its immutable test holds. -/
theorem check_immutable_sets (env : Env) (s : State)
    (h : (check_immutable env s).2.impl._is_immutable = true) :
    s.impl._is_immutable = true ∨
      ∃ tablet, env.get_tablet 200 = .ok tablet ∧ exceeds_immutable_size tablet s := by
  unfold check_immutable at h
  unfold exceeds_immutable_size
  cases hg : env.get_tablet 200 <;> simp only [hg] at h ⊢
  all_goals
    split_ifs at h
    all_goals first
      | exact Or.inl h
      | exact Or.inr ⟨_, rfl, ‹_›, ‹_›⟩

theorem check_immutable_flag_step (env : Env) (s : State) :
    flag_step s (check_immutable env s).2 := by
  refine ⟨?_, ?_, ?_⟩
  · unfold check_immutable
    repeat' (first | rfl | split)
  · intro hf
    unfold check_immutable
    repeat' (first | rfl | exact hf | split)
  · intro hf
    rcases check_immutable_sets env s hf with h | ⟨_, _, h, _⟩
    · exact Or.inl h
    · exact Or.inr h

theorem step_flag_step (env : Env) (op : Op) (s : State) :
    flag_step s (step env op s) ∧
      (Op.is_plain op → env.wait_callbacks = [] →
        immutable_part (step env op s).impl = immutable_part s.impl) := by
  cases op with
  | «open» =>
    have h : flag_kept env s («open» env s).2 := by
      unfold «open»
      split_ifs <;> exact flag_kept_of_part env rfl
    exact ⟨h.1, fun _ => h.2⟩
  | write chunk indexes indexes_size =>
    exact ⟨(write_flag_kept env s chunk indexes indexes_size).1,
      fun _ => (write_flag_kept env s chunk indexes indexes_size).2⟩
  | flush => exact ⟨(flush_flag_kept env s).1, fun _ => (flush_flag_kept env s).2⟩
  | flush_async =>
    exact ⟨flag_step_of_part (flush_async_immutable env s), fun _ _ => flush_async_immutable env s⟩
  | finish mode => exact ⟨(finish_flag_kept env s mode).1, fun _ => (finish_flag_kept env s mode).2⟩
  | close => exact ⟨(close_flag_kept env s).1, fun _ => (close_flag_kept env s).2⟩
  | check_immutable => exact ⟨check_immutable_flag_step env s, fun h => absurd h id⟩
  | callback d => exact ⟨flush_callback_flag_step d s, fun h => absurd h id⟩

theorem reachable_flag {s : State} (h : Reachable s) :
    s.impl._is_immutable = true → s.impl._immutable_tablet_size > 0 := by
  induction h with
  | init wbs b mgr =>
    intro hf
    exact absurd hf (by simp [State.init, DeltaWriterBuilder.construct, DeltaWriterImpl.new])
  | @step s0 env op hs ih =>
    intro hf
    have h := (step_flag_step env op s0).1
    rw [h.1]
    rcases h.2.2 hf with h1 | h1
    · exact ih h1
    · exact h1

theorem foldl_flush_callback_sets (ds : List FlushDone) :
    ∀ s : State, (ds.foldl (fun acc d => flush_callback d acc) s).impl._is_immutable = true →
      s.impl._is_immutable = true ∨
        ∃ pre d post tablet, ds = pre ++ d :: post ∧ d.get_tablet = .ok tablet ∧
          exceeds_immutable_size tablet
            (segment_accounted d (pre.foldl (fun acc d => flush_callback d acc) s)) := by
  induction ds with
  | nil => intro s h; exact Or.inl h
  | cons d rest ih =>
    intro s h
    rcases ih (flush_callback d s) h with h1 | ⟨pre, d1, post, tablet, hsplit, hg, hex⟩
    · rcases flush_callback_sets d s h1 with h2 | ⟨tablet, hg, hex⟩
      · exact Or.inl h2
      · exact Or.inr ⟨[], d, rest, tablet, rfl, hg, hex⟩
    · exact Or.inr ⟨d :: pre, d1, post, tablet, by rw [hsplit]; rfl, hg, hex⟩

theorem flush_token_wait_sets (env : Env) (s : State)
    (h : (flush_token_wait env s).2.impl._is_immutable = true) :
    s.impl._is_immutable = true ∨
      ∃ pre d post tablet, env.wait_callbacks = pre ++ d :: post ∧ d.get_tablet = .ok tablet ∧
        exceeds_immutable_size tablet
          (segment_accounted d (pre.foldl (fun acc d => flush_callback d acc) s)) := by
  unfold flush_token_wait at h
  cases ht : s.impl._flush_token with
  | none =>
    rw [ht] at h
    exact Or.inl h
  | some t =>
    rw [ht] at h
    exact foldl_flush_callback_sets env.wait_callbacks s h

/-- When the two sizes are byte counts, a passed immutable test means that their
exact sum exceeds `immutable_tablet_size`: a sum that leaves the `int64_t` range
wraps to a negative value and fails the test. -/
theorem exceeds_immutable_size_exact (tablet : Tablet) (s : State)
    (h : exceeds_immutable_size tablet s) (hd : is_byte_count tablet.data_size)
    (hw : is_byte_count (s.mgr.in_writing_data_size s.impl._tablet_id)) :
    tablet.data_size + s.mgr.in_writing_data_size s.impl._tablet_id
      > s.impl._immutable_tablet_size := by
  unfold exceeds_immutable_size int64_add at h
  unfold is_byte_count at hd hw
  omega

/-- C16: the `is_immutable` flag is false in the constructor's state; no call and no
flush callback resets it or changes `immutable_tablet_size`; `check_immutable()`
sets it only when `immutable_tablet_size > 0` and the `int64_t` sum of the size of
the tablet it looked up and the in-writing bytes of the tablet exceeds
`immutable_tablet_size`; a flush callback, run on its own or among the callbacks
completed by a `wait()`, sets it only under the same test, evaluated once the
callback has added its segment; whenever that test passes on two byte counts,
their exact sum exceeds `immutable_tablet_size`; a call other than
`check_immutable()` during which no callback runs leaves the flag as it was; hence
with `immutable_tablet_size <= 0` the flag is false in every reachable state, and
`check_immutable()` returns OK with the state untouched whatever a tablet lookup
would answer. -/
theorem is_immutable_flag (env : Env) (op : Op) (s : State) (d : FlushDone)
    (write_buffer_size : Int) (b : DeltaWriterBuilder) (mgr : TabletManager) :
    (State.init write_buffer_size b mgr).impl.is_immutable = false ∧
    (s.impl.is_immutable = true → (step env op s).impl.is_immutable = true) ∧
    (step env op s).impl._immutable_tablet_size = s.impl._immutable_tablet_size ∧
    ((check_immutable env s).2.impl.is_immutable = true →
      s.impl.is_immutable = true ∨
        ∃ tablet, env.get_tablet 200 = .ok tablet ∧ exceeds_immutable_size tablet s) ∧
    ((flush_callback d s).impl.is_immutable = true →
      s.impl.is_immutable = true ∨
        ∃ tablet, d.get_tablet = .ok tablet ∧
          exceeds_immutable_size tablet (segment_accounted d s)) ∧
    ((flush_token_wait env s).2.impl.is_immutable = true →
      s.impl.is_immutable = true ∨
        ∃ pre d1 post tablet, env.wait_callbacks = pre ++ d1 :: post ∧
          d1.get_tablet = .ok tablet ∧
          exceeds_immutable_size tablet
            (segment_accounted d1 (pre.foldl (fun acc d2 => flush_callback d2 acc) s))) ∧
    (∀ (tablet : Tablet) (s0 : State), exceeds_immutable_size tablet s0 →
      is_byte_count tablet.data_size →
      is_byte_count (s0.mgr.in_writing_data_size s0.impl._tablet_id) →
      tablet.data_size + s0.mgr.in_writing_data_size s0.impl._tablet_id
        > s0.impl._immutable_tablet_size) ∧
    (Op.is_plain op → env.wait_callbacks = [] →
      (step env op s).impl.is_immutable = s.impl.is_immutable) ∧
    (Reachable s → s.impl._immutable_tablet_size ≤ 0 → s.impl.is_immutable = false) ∧
    (s.impl._immutable_tablet_size ≤ 0 → check_immutable env s = (Status.OK, s)) := by
  have hstep := step_flag_step env op s
  refine ⟨rfl, hstep.1.2.1, hstep.1.1, check_immutable_sets env s, flush_callback_sets d s,
    flush_token_wait_sets env s, exceeds_immutable_size_exact, ?_, ?_, ?_⟩
  · intro hp hnil
    have h := hstep.2 hp hnil
    simp only [immutable_part, Prod.mk.injEq] at h
    exact h.2
  · intro hr hle
    cases hf : s.impl.is_immutable with
    | false => rfl
    | true => exact absurd (reachable_flag hr hf) (not_lt.mpr hle)
  · intro hle
    unfold check_immutable
    rw [if_neg (not_lt.mpr hle)]

/-- Witness of C16: with 600 bytes in writing and `immutable_tablet_size = 1000`, a
lookup that finds a tablet of 500 bytes sets the flag and `close()` keeps it set;
a lookup that finds `INT64_MAX` bytes leaves it clear, the `int64_t` sum being
negative; a `flush()` without completed callbacks does not touch it; and a writer
without immutable tracking answers OK with the state untouched. -/
theorem is_immutable_flag_witness :
    immutable_state.impl.is_immutable = false ∧
    (check_immutable big_tablet_env immutable_state).2.impl.is_immutable = true ∧
    (∃ tablet, big_tablet_env.get_tablet 200 = .ok tablet ∧
      exceeds_immutable_size tablet immutable_state ∧
      tablet.data_size + immutable_state.mgr.in_writing_data_size immutable_state.impl._tablet_id
        > immutable_state.impl._immutable_tablet_size) ∧
    (step failing_wait_env Op.close (check_immutable big_tablet_env immutable_state).2).impl.is_immutable
      = true ∧
    (check_immutable max_tablet_env immutable_state).2.impl.is_immutable = false ∧
    (step big_tablet_env Op.flush immutable_state).impl.is_immutable = false ∧
    (example_state none).impl.is_immutable = false ∧
    check_immutable big_tablet_env (example_state none) = (Status.OK, example_state none) := by
  have h1 : (check_immutable big_tablet_env immutable_state).2.impl.is_immutable = true := by decide
  have h0 : immutable_state.impl.is_immutable = false := by decide
  have hc := is_immutable_flag big_tablet_env Op.check_immutable immutable_state (segment_done 0) 100
    example_builder {}
  have hclose := is_immutable_flag failing_wait_env Op.close
    (check_immutable big_tablet_env immutable_state).2 (segment_done 0) 100 example_builder {}
  have hflush := is_immutable_flag big_tablet_env Op.flush immutable_state (segment_done 0) 100
    example_builder {}
  have hinit := is_immutable_flag big_tablet_env Op.check_immutable (example_state none)
    (segment_done 0) 100 example_builder {}
  refine ⟨h0, h1, ?_, hclose.2.1 h1, by decide, ?_, ?_, hinit.2.2.2.2.2.2.2.2.2 (by decide)⟩
  · rcases hc.2.2.2.1 h1 with h | ⟨tablet, hg, hex⟩
    · rw [h0] at h
      exact absurd h (by decide)
    · have htab : tablet = { example_tablet example_schema with data_size := 500 } := by
        have hg2 : big_tablet_env.get_tablet 200
            = .ok { example_tablet example_schema with data_size := 500 } := rfl
        rw [hg2] at hg
        exact (Except.ok.inj hg).symm
      refine ⟨tablet, hg, hex, hc.2.2.2.2.2.2.1 tablet immutable_state hex ?_ ?_⟩
      · rw [htab]
        unfold is_byte_count
        decide
      · unfold is_byte_count
        decide
  · rw [hflush.2.2.2.2.2.2.2.1 trivial rfl]
    exact h0
  · exact hinit.2.2.2.2.2.2.2.2.1 (Reachable.init 100 _ {}) (by decide)

end starrocks.lake
